import Mathlib

/-!
Verification development for `scripts/geodata/osm/osm_address_training_data.py`
of the libpostal repository.

The Python source is shallowly embedded below: tag maps become ordered
association lists (`List (String × String)`), Python floats become `ℚ`,
fallible code returns `Option`, and the external collaborators
(the language table, the disambiguation classifier, the geo index,
the address formatter, the tsv escaper) become explicit parameters
collected in a `Collab` structure.  Strings are manipulated through
character lists so that every definition evaluates by kernel reduction.
-/

set_option autoImplicit false

/-! ## Basic string and association-list helpers -/

/-- Characters of a string. -/
def strChars (s : String) : List Char := s.data

/-- String from characters. -/
def ofChars (cs : List Char) : String := String.mk cs

/-- Split a character list on a separator character.  Mirrors Python's
`str.split(sep)` for a one-character separator: the result is always
nonempty and adjacent separators produce empty groups. -/
def splitOnChar (sep : Char) : List Char → List (List Char)
  | [] => [[]]
  | c :: rest =>
    let r := splitOnChar sep rest
    if c = sep then [] :: r
    else
      match r with
      | [] => [[c]]
      | g :: gs => (c :: g) :: gs

/-- Python's `s.startswith(pre)`. -/
def pyStartsWith (s pre : String) : Bool := pre.data.isPrefixOf s.data

/-- Python's `c in s` for a single character. -/
def pyContains (s : String) (c : Char) : Bool := s.data.contains c

/-- Strip the characters of `cset` from both ends of a character list,
as Python's `str.strip(chars)` does. -/
def stripChars (cset : List Char) (cs : List Char) : List Char :=
  ((cs.dropWhile (fun c => cset.contains c)).reverse.dropWhile
    (fun c => cset.contains c)).reverse

/-- The characters stripped by Python's no-argument `str.strip()`. -/
def wsChars : List Char :=
  [' ', Char.ofNat 9, Char.ofNat 10, Char.ofNat 13, Char.ofNat 11, Char.ofNat 12]

/-- Python's no-argument `str.strip()`. -/
def pyStripAll (s : String) : String := ofChars (stripChars wsChars s.data)

/-- First-match lookup in an association list (Python `dict` read access on
maps whose keys are unique). -/
def alGet {α β : Type} [DecidableEq α] : List (α × β) → α → Option β
  | [], _ => none
  | (k1, v) :: rest, k => if k1 = k then some v else alGet rest k

/-- Update-or-append write, mirroring `d[k] = v` on an ordered dict:
an existing key keeps its position, a new key is appended. -/
def alSet {α β : Type} [DecidableEq α] : List (α × β) → α → β → List (α × β)
  | [], k, v => [(k, v)]
  | (k1, v1) :: rest, k, v =>
    if k1 = k then (k1, v) :: rest else (k1, v1) :: alSet rest k v

/-- Remove a key, mirroring `d.pop(k, None)`. -/
def alPop {α β : Type} [DecidableEq α] : List (α × β) → α → List (α × β)
  | [], _ => []
  | (k1, v1) :: rest, k =>
    if k1 = k then rest else (k1, v1) :: alPop rest k

/-- Read access for a `defaultdict(list)`: a missing key reads as `[]`. -/
def ddGet {α : Type} [DecidableEq α] : List (α × List String) → α → List String
  | [], _ => []
  | (k1, vs) :: rest, k => if k1 = k then vs else ddGet rest k

/-- Append to a `defaultdict(list)` bucket, creating the bucket (at the end,
in insertion order) when the key is new. -/
def ddAppend {α : Type} [DecidableEq α] :
    List (α × List String) → α → String → List (α × List String)
  | [], k, v => [(k, [v])]
  | (k1, vs) :: rest, k, v =>
    if k1 = k then (k1, vs ++ [v]) :: rest else (k1, vs) :: ddAppend rest k v

/-! ## Numeric text parsing -/

/-- Value of a nonempty all-digit character list; `none` otherwise. -/
def parseDigitsVal (cs : List Char) : Option Nat :=
  if cs.isEmpty then none
  else
    cs.foldl
      (fun acc c =>
        acc.bind (fun n => if c.isDigit then some (n * 10 + (c.toNat - 48)) else none))
      (some 0)

/-- Model of Python's `float(s)` on the decimal forms relevant here:
an optional sign, then digits with an optional dot (either side of the dot
may be empty but not both).  Exponent, infinity and nan forms are not
modelled; no input exercised by this development produces them. -/
def parseFloat? (s : List Char) : Option ℚ :=
  let signBody : ℚ × List Char :=
    match s with
    | '-' :: rest => (-1, rest)
    | '+' :: rest => (1, rest)
    | _ => (1, s)
  let sgn := signBody.1
  let body := signBody.2
  match splitOnChar '.' body with
  | [intPart] => (parseDigitsVal intPart).map (fun n => sgn * (n : ℚ))
  | [intPart, fracPart] =>
    if intPart.isEmpty ∧ fracPart.isEmpty then none
    else
      let ip := if intPart.isEmpty then some 0 else parseDigitsVal intPart
      let fp := if fracPart.isEmpty then some 0 else parseDigitsVal fracPart
      match ip, fp with
      | some i, some f =>
        some (sgn * ((i : ℚ) + (f : ℚ) / (10 : ℚ) ^ fracPart.length))
      | _, _ => none
  | _ => none

/-- Model of Python's `long(s)` restricted to the nonnegative all-digit ids
appearing in the converted OSM dumps. -/
def parseNat? (s : String) : Option Nat := parseDigitsVal s.data

/-! ## A small regex engine

The coordinate normalizer in the source is driven by four anchored regular
expressions over a tiny grammar (character classes, greedy `?` and `[ ]*`,
one alternation, four capture groups).  The engine below implements exactly
leftmost-greedy matching with backtracking, which is what Python's `re`
performs on these patterns. -/

/-- Regular-expression abstract syntax.  `star` is restricted to a character
class, which is all the source patterns use. -/
inductive RE where
  | eps : RE
  | cls (p : Char → Bool) : RE
  | cat (a b : RE) : RE
  | alt (a b : RE) : RE
  | opt (a : RE) : RE
  | star (p : Char → Bool) : RE
  | group (n : Nat) (a : RE) : RE

/-- Remainders after consuming a greedy character-class run, longest
consumption first (the backtracking order of a greedy `[c]*`). -/
def starSplits (p : Char → Bool) (cs : List Char) : List (List Char) :=
  let n := (cs.takeWhile p).length
  (List.range (n + 1)).map (fun i => cs.drop (n - i))

/-- First successful alternative. -/
def firstSome (xs : List (List Char))
    (k : List Char → Option (List (Nat × List Char))) :
    Option (List (Nat × List Char)) :=
  match xs with
  | [] => none
  | x :: rest =>
    match k x with
    | some r => some r
    | none => firstSome rest k

/-- Backtracking matcher in continuation style.  `caps` accumulates
`(group number, consumed characters)` pairs along the current path. -/
def reMatch : RE → List Char → List (Nat × List Char) →
    (List Char → List (Nat × List Char) → Option (List (Nat × List Char))) →
    Option (List (Nat × List Char))
  | .eps, cs, caps, k => k cs caps
  | .cls p, cs, caps, k =>
    match cs with
    | [] => none
    | c :: rest => if p c then k rest caps else none
  | .cat a b, cs, caps, k =>
    reMatch a cs caps (fun cs2 caps2 => reMatch b cs2 caps2 k)
  | .alt a b, cs, caps, k =>
    match reMatch a cs caps k with
    | some r => some r
    | none => reMatch b cs caps k
  | .opt a, cs, caps, k =>
    match reMatch a cs caps k with
    | some r => some r
    | none => k cs caps
  | .star p, cs, caps, k => firstSome (starSplits p cs) (fun rest => k rest caps)
  | .group n a, cs, caps, k =>
    reMatch a cs caps
      (fun cs2 caps2 => k cs2 (caps2 ++ [(n, cs.take (cs.length - cs2.length))]))

/-- Anchored match of the whole input (the source patterns carry `^...$` and
are used with `re.match`). -/
def reFullMatch (r : RE) (cs : List Char) : Option (List (Nat × List Char)) :=
  reMatch r cs [] (fun rest caps => if rest.isEmpty then some caps else none)

/-- Text captured by a group, `none` when the group did not participate. -/
def capture (caps : List (Nat × List Char)) (n : Nat) : Option (List Char) :=
  (caps.find? (fun e => e.1 = n)).map (fun e => e.2)

/-! ## The four coordinate regexes (source lines 170-174)

`re.I` is applied by listing both cases of every cased letter in a class. -/

/-- Greedy run of spaces, `[ ]*`. -/
def spStar : RE := .star (fun c => c = ' ')

/-- Digit class `[0-9]`. -/
def digitC : RE := .cls Char.isDigit

/-- Class `[0-5]`. -/
def digit05C : RE := .cls (fun c => 48 ≤ c.toNat ∧ c.toNat ≤ 53)

/-- Class `[0-8]`. -/
def digit08C : RE := .cls (fun c => 48 ≤ c.toNat ∧ c.toNat ≤ 56)

/-- Degree marker class `[ :°ºd]` under `re.I`. -/
def degMarkC : RE :=
  .cls (fun c => c = ' ' ∨ c = ':' ∨ c = '°' ∨ c = 'º' ∨ c = 'd' ∨ c = 'D')

/-- Minute marker class (colon, apostrophe, prime, or `m`) under `re.I`. -/
def minMarkC : RE :=
  .cls (fun c => c = ':' ∨ c = Char.ofNat 39 ∨ c = '′' ∨ c = 'm' ∨ c = 'M')

/-- Second marker class (colon, question mark, double quote, double prime,
or `s`) under `re.I`. -/
def secMarkC : RE :=
  .cls (fun c => c = ':' ∨ c = '?' ∨ c = Char.ofNat 34 ∨ c = '″' ∨ c = 's' ∨ c = 'S')

/-- Shared tail of the two DMS patterns after the degrees group:
separator, optional minutes group 2, optional minute mark, optional seconds
group 3 (with optional decimal fraction), optional second mark, optional
cardinal-letter group 4. -/
def dmsTail (cardinal : Char → Bool) : RE :=
  .cat spStar
    (.cat degMarkC
      (.cat spStar
        (.cat (.opt (.group 2 (.cat (.opt digit05C) digitC)))
          (.cat spStar
            (.cat (.opt minMarkC)
              (.cat spStar
                (.cat
                  (.opt (.group 3
                    (.cat (.cat (.opt digit05C) digitC)
                      (.opt (.cat (.cls (fun c => c = '.'))
                        (.cat digitC (.star Char.isDigit)))))))
                  (.cat spStar
                    (.cat (.opt secMarkC)
                      (.cat spStar
                        (.opt (.group 4 (.cls cardinal)))))))))))))

/-- Source line 170, `latitude_dms_regex`. -/
def latitude_dms_regex : RE :=
  .cat (.group 1 (.cat (.opt (.cls (fun c => c = '-'))) (.cat digitC (.opt digitC))))
    (dmsTail (fun c => c = 'N' ∨ c = 'n' ∨ c = 'S' ∨ c = 's'))

/-- Source line 171, `longitude_dms_regex`.  Note the sign is only admitted
on the three-digit `1[0-8][0-9]` alternative, exactly as in the pattern. -/
def longitude_dms_regex : RE :=
  .cat
    (.group 1
      (.alt
        (.cat (.opt (.cls (fun c => c = '-')))
          (.cat (.cls (fun c => c = '1')) (.cat digit08C digitC)))
        (.cat (.opt (.cls (fun c => c = '0'))) (.cat digitC (.opt digitC)))))
    (dmsTail (fun c => c = 'E' ∨ c = 'e' ∨ c = 'W' ∨ c = 'w'))

/-- Source line 173, `latitude_decimal_with_direction_regex`: exactly two
degree digits, a mandatory decimal fraction, and a mandatory cardinal
letter captured as group 2. -/
def latitude_decimal_with_direction_regex : RE :=
  .cat
    (.group 1
      (.cat (.opt (.cls (fun c => c = '-')))
        (.cat digitC
          (.cat digitC
            (.cat (.cls (fun c => c = '.')) (.cat digitC (.star Char.isDigit)))))))
    (.cat spStar
      (.cat (.opt degMarkC)
        (.cat spStar
          (.group 2 (.cls (fun c => c = 'N' ∨ c = 'n' ∨ c = 'S' ∨ c = 's'))))))

/-- Source line 174, `longitude_decimal_with_direction_regex`. -/
def longitude_decimal_with_direction_regex : RE :=
  .cat
    (.group 1
      (.alt
        (.cat (.opt (.cls (fun c => c = '-')))
          (.cat (.cls (fun c => c = '1')) (.cat digit08C digitC)))
        (.cat (.opt (.cls (fun c => c = '0')))
          (.cat digitC
            (.cat digitC
              (.cat (.cls (fun c => c = '.')) (.cat digitC (.star Char.isDigit))))))))
    (.cat spStar
      (.cat (.opt degMarkC)
        (.cat spStar
          (.group 2 (.cls (fun c => c = 'E' ∨ c = 'e' ∨ c = 'W' ∨ c = 'w'))))))

/-! ## Coordinate normalizer (source lines 160-221) -/

/-- Modelled from the spec: `degrees_to_decimal` lives in
`geodata.language_id.disambiguation`, outside the shown sources; per §4.1 it
converts degrees, minutes and seconds as `d + m/60 + s/3600`. -/
def degrees_to_decimal (d m s : ℚ) : ℚ := d + m / 60 + s / 3600

/-- Modelled from the spec: `direction_sign` lives in
`geodata.language_id.disambiguation`, outside the shown sources; per §4.1 a
cardinal letter S or W yields -1 and N, E or a missing letter yields 1. -/
def direction_sign (c : Option (List Char)) : ℚ :=
  match c with
  | some cs =>
    if cs = ['S'] ∨ cs = ['s'] ∨ cs = ['W'] ∨ cs = ['w'] then -1 else 1
  | none => 1

/-- Python's `d or 0` on a capture, then `float` conversion. -/
def floatCapture (c : Option (List Char)) : Option ℚ :=
  match c with
  | none => some 0
  | some cs => parseFloat? cs

/-- Fallback normalization (source lines 167-168 and 201-202 / 218-219):
`re.sub` of `^[^0-9\-]+` then of `[^0-9]+$`. -/
def stripBoundary (cs : List Char) : List Char :=
  ((cs.dropWhile (fun c => ¬(c.isDigit ∨ c = '-'))).reverse.dropWhile
    (fun c => ¬c.isDigit)).reverse

/-- One coordinate component of `latlon_to_floats`: try the DMS pattern,
then the decimal-with-direction pattern, then the stripped plain float.
In the DMS branch the source computes `sign = direction_sign(c)` and then
never applies it to the returned value; `_sgn` reproduces that dead
computation. -/
def parseCoordinate (dmsRe dirRe : RE) (cs : List Char) : Option ℚ :=
  match reFullMatch dmsRe cs with
  | some caps =>
    let _sgn := direction_sign (capture caps 4)
    match floatCapture (capture caps 1), floatCapture (capture caps 2),
        floatCapture (capture caps 3) with
    | some d, some m, some s => some (degrees_to_decimal d m s)
    | _, _, _ => none
  | none =>
    match reFullMatch dirRe cs with
    | some caps =>
      match (capture caps 1).bind parseFloat? with
      | some d => some (d * direction_sign (capture caps 2))
      | none => none
    | none => parseFloat? (stripBoundary cs)

/-- Characters stripped from both coordinate ends, `u' ,;|'`. -/
def coordStripSet : List Char := [' ', ',', ';', '|']

/-- Comma decimal separators become dots (source lines 184-185). -/
def commaToDot (cs : List Char) : List Char :=
  cs.map (fun c => if c = ',' then '.' else c)

/-- Source lines 177-221, `latlon_to_floats`.  An exception anywhere in the
original (unconvertible residual text) is modelled by `none`. -/
def latlon_to_floats (latitude longitude : String) : Option (ℚ × ℚ) :=
  let latC := commaToDot (stripChars coordStripSet latitude.data)
  let lonC := commaToDot (stripChars coordStripSet longitude.data)
  match parseCoordinate latitude_dms_regex latitude_decimal_with_direction_regex latC with
  | none => none
  | some la =>
    match parseCoordinate longitude_dms_regex longitude_decimal_with_direction_regex lonC with
    | none => none
    | some lo => some (la, lo)

example : latlon_to_floats "40.7128" "-74.0060" = some (407128 / 10000, -740060 / 10000) := by
  rw [show latlon_to_floats "40.7128" "-74.0060" =
      some ((1 : ℚ) * (((40 : ℕ) : ℚ) + ((7128 : ℕ) : ℚ) / (10 : ℚ) ^ (4 : ℕ)),
        (-1 : ℚ) * (((74 : ℕ) : ℚ) + ((60 : ℕ) : ℚ) / (10 : ℚ) ^ (4 : ℕ))) from rfl]
  norm_num

example : latlon_to_floats "40 42 46 N" "74 0 21 W" = some (73283 / 1800, 88807 / 1200) := by
  rw [show latlon_to_floats "40 42 46 N" "74 0 21 W" =
      some (degrees_to_decimal (1 * ((40 : ℕ) : ℚ)) (1 * ((42 : ℕ) : ℚ)) (1 * ((46 : ℕ) : ℚ)),
        degrees_to_decimal (1 * ((74 : ℕ) : ℚ)) (1 * ((0 : ℕ) : ℚ)) (1 * ((21 : ℕ) : ℚ))) from rfl]
  norm_num [degrees_to_decimal]

/-! ## OSM Stream Parser (source lines 68-78 and 116-143) -/

/-- Source line 68. -/
def WAY_OFFSET : Nat := 10 ^ 15

/-- Source line 69. -/
def RELATION_OFFSET : Nat := 2 * 10 ^ 15

/-- Source line 77. -/
def ALL_OSM_TAGS : List String := ["node", "way", "relation"]

/-- Source line 78. -/
def WAYS_RELATIONS : List String := ["way", "relation"]

/-- One parsed XML element: its tag, native attributes, and child elements
given as (tag, attributes).  The converted planet dumps are flat, so child
elements carry no further nesting. -/
structure XmlElem where
  tag : String
  attrib : List (String × String)
  children : List (String × List (String × String))

/-- Key yielded by the stream parser: the bare numeric id when exactly one
kind is allowed, otherwise the `'{type}:{id}'` combination
(source line 136). -/
inductive OsmKey where
  | plainId (n : Nat)
  | typed (t : String) (n : Nat)
deriving DecidableEq

/-- Id-offset decoding (source lines 125-130): ids at or above `WAY_OFFSET`
are ways, ids at or above `RELATION_OFFSET` are relations, and smaller ids
keep the element's own tag as their kind. -/
def decode_osm_id (elem_id : Nat) (item_type : String) : Nat × String :=
  if WAY_OFFSET ≤ elem_id ∧ elem_id < RELATION_OFFSET then (elem_id - WAY_OFFSET, "way")
  else if RELATION_OFFSET ≤ elem_id then (elem_id - RELATION_OFFSET, "relation")
  else (elem_id, item_type)

/-- `OrderedDict(pairs)`: last value wins, first position wins. -/
def odFromList (pairs : List (String × String)) : List (String × String) :=
  pairs.foldl (fun m kv => alSet m kv.1 kv.2) []

/-- Source lines 116-143, `parse_osm`, over an already-lexed element
stream.  `allowed_types` is assumed duplicate-free (the source passes
literal sets).  A malformed id text, which would abort the Python
generator with an uncaught exception, is not exercised here and reads
as 0; a child `tag` element lacking `k` or `v` likewise reads as "". -/
def parse_osm (stream : List XmlElem) (allowed_types : List String) :
    List (OsmKey × List (String × String)) :=
  let single_type := allowed_types.length = 1
  stream.filterMap (fun elem =>
    let elem_id := (parseNat? ((alGet elem.attrib "id").getD "0")).getD 0
    let dec := decode_osm_id elem_id elem.tag
    if dec.2 ∈ allowed_types then
      let attrs0 := odFromList (alPop elem.attrib "id")
      let childPairs := elem.children.filterMap (fun ch =>
        if ch.1 = "tag" then some ((alGet ch.2 "k").getD "", (alGet ch.2 "v").getD "")
        else none)
      let attrs := (odFromList childPairs).foldl (fun m kv => alSet m kv.1 kv.2) attrs0
      some (if single_type then OsmKey.plainId dec.1 else OsmKey.typed dec.2 dec.1, attrs)
    else none)

/-! ## Data model and external collaborators -/

/-- One ranked candidate language from the geo index (spec §3):
`{'lang': ..., 'default': ...}`. -/
structure CandidateLanguage where
  lang : String
  default : Bool
deriving DecidableEq

/-- Per-polygon language properties from the geo index (spec §3):
`{'admin_level': ..., 'languages': [...]}`. -/
structure LanguageProps where
  admin_level : Nat
  languages : List CandidateLanguage
deriving DecidableEq

/-- Result of `country_and_languages(language_rtree, lat, lon)`.  A missing
country is the empty string; the source checks
`if not (country and candidate_languages)`. -/
structure GeoLookup where
  country : String
  candidate_languages : List CandidateLanguage
  language_props : List LanguageProps
deriving DecidableEq

/-- The geo index collaborator, consumed as a black-box point lookup. -/
def LanguageRTree : Type := ℚ → ℚ → GeoLookup

/-- Modelled from the spec: the sentinel `AMBIGUOUS_LANGUAGE` returned by the
disambiguation collaborator lives in `geodata.language_id.disambiguation`,
outside the shown sources; §4.3 and §6 call this outcome "ambiguous". -/
def AMBIGUOUS_LANGUAGE : String := "ambiguous"

/-- Modelled from the spec: the sentinel `UNKNOWN_LANGUAGE` returned by the
disambiguation collaborator, §4.3 and §6 call this outcome "unknown". -/
def UNKNOWN_LANGUAGE : String := "unknown"

/-- The external collaborators used by the script, bundled: the known
language-code table `languages` and `official_languages` from
`geodata.i18n.languages`, the classifier `disambiguate_language` and the
`WELL_REPRESENTED_LANGUAGES` / `WELL_REPRESENTED_LANGUAGE_COUNTRIES` tables
from `geodata.language_id.disambiguation`, the address formatter, and the
tsv escaping helper from `geodata.csv_utils`. -/
structure Collab where
  languages : List String
  disambiguate_language : String → List (String × Bool) → String
  well_represented : List String
  wrlc : String → List String
  official_languages : String → List (String × Bool)
  format_address : String → List (String × String) → Bool → Option String
  tsv_string : String → String

/-! ## Tag-name normalization (source lines 160-164) -/

/-- Strip a trailing `_script` qualifier: `s.split('_', 1)[0]`. -/
def strip_script_qualifier (s : String) : String :=
  ofChars ((splitOnChar '_' s.data).headD s.data)

/-- Source `normalize_osm_name_tag(tag, script)`: the part after the last
colon, optionally with a trailing underscore qualifier stripped. -/
def normalize_osm_name_tag (tag : String) (script : Bool) : String :=
  let norm := ofChars ((splitOnChar ':' tag.data).getLastD tag.data)
  if script then strip_script_qualifier norm else norm

/-! ## Language Attribution Engine (source lines 224-307)

The loop state and the per-tag step are split out of `get_language_names`
so that the theorems below can speak about single iterations.  The engine
additionally records, as ghost instrumentation, every invocation of the
disambiguation collaborator (text and candidate pairs); this log does not
exist in the source and influences nothing. -/

/-- Precomputed entity-level context of the attribution loop
(source lines 228-272). -/
structure AttrCtx where
  languages : List String
  well_represented : List String
  disambiguate : String → List (String × Bool) → String
  tagPfx : String
  has_colon : Bool
  tag_first_component : String
  tag_last_component : String
  candidate_languages : List CandidateLanguage
  num_langs : Nat
  default_langs : List String
  num_defaults : Nat
  equivalent_alternatives : List (String × List String)
  ambiguous_alternatives : List String
  has_alternate_names : Bool
  regional_defaults : Nat
  country_defaults : Nat
  regional_langs : List String
  country_langs : List String

/-- Mutable state of the attribution loop: the accumulated
`name_language` map, the `ambiguous_already_seen` set, and the ghost log
of disambiguation calls. -/
structure AttrState where
  name_language : List (String × List String)
  ambiguous_already_seen : List String
  calls : List (String × List (String × Bool))
deriving DecidableEq

/-- Initial attribution state. -/
def initAttrState : AttrState := ⟨[], [], []⟩

/-- Head candidate language, total because the engine only runs when the
candidate list is nonempty (`candidate_languages[0]['lang']`). -/
def headLang (cands : List CandidateLanguage) : String :=
  (cands.headD ⟨"", false⟩).lang

/-- Alternate tags collected in the first pass (source lines 249-253):
keys `prefix:<lang>` whose script-stripped suffix is a known language,
paired as `(suffix, value)`. -/
def collect_alternate_langs (languages : List String) (value : List (String × String))
    (tagPfx : String) : List (String × String) :=
  value.filterMap (fun kv =>
    if pyStartsWith kv.1 (tagPfx ++ ":") = true ∧
        normalize_osm_name_tag kv.1 true ∈ languages then
      some (normalize_osm_name_tag kv.1 false, kv.2)
    else none)

/-- Grouping of alternates by shared text,
`equivalent_alternatives[v].append(lang)`. -/
def group_equivalent_alternatives (alts : List (String × String)) :
    List (String × List String) :=
  alts.foldl (fun m lv => ddAppend m lv.2 lv.1) []

/-- Context construction from the geo lookup and the tag map
(source lines 228-272). -/
def mkAttrCtx (collab : Collab) (g : GeoLookup) (value : List (String × String))
    (tagPfx : String) : AttrCtx :=
  let default_langs := ((g.candidate_languages.filter (fun l => l.default)).map
    (fun l => l.lang)).dedup
  let alternate_langs := collect_alternate_langs collab.languages value tagPfx
  let equivalent_alternatives := group_equivalent_alternatives alternate_langs
  let ambiguous_alternatives :=
    (equivalent_alternatives.filter (fun e => 1 < e.2.length)).map (fun e => e.1)
  let regional := g.language_props.filter (fun p => 0 < p.admin_level)
  let country := g.language_props.filter (fun p => ¬0 < p.admin_level)
  { languages := collab.languages
    well_represented := collab.well_represented
    disambiguate := collab.disambiguate_language
    tagPfx := tagPfx
    has_colon := pyContains tagPfx ':'
    tag_first_component := ofChars ((splitOnChar ':' tagPfx.data).headD tagPfx.data)
    tag_last_component := ofChars ((splitOnChar ':' tagPfx.data).getLastD tagPfx.data)
    candidate_languages := g.candidate_languages
    num_langs := g.candidate_languages.length
    default_langs := default_langs
    num_defaults := default_langs.length
    equivalent_alternatives := equivalent_alternatives
    ambiguous_alternatives := ambiguous_alternatives
    has_alternate_names := ¬alternate_langs.length = 0
    regional_defaults :=
      regional.foldl (fun n p => n + (p.languages.filter (fun l => l.default)).length) 0
    country_defaults :=
      country.foldl (fun n p => n + (p.languages.filter (fun l => l.default)).length) 0
    regional_langs :=
      regional.foldl (fun s p =>
        s ++ ((p.languages.map (fun l => l.lang)).filter (fun l => ¬l ∈ s))) []
    country_langs :=
      country.foldl (fun s p =>
        s ++ ((p.languages.map (fun l => l.lang)).filter (fun l => ¬l ∈ s))) [] }

/-- Guard of the bare-tag branch (second `elif` of source line 289,
everything after `not has_alternate_names`). -/
def bare_tag_guard (ctx : AttrCtx) (k : String) : Bool :=
  pyStartsWith k ctx.tag_first_component &&
    (ctx.has_colon || !pyContains k ':') &&
    normalize_osm_name_tag k true = ctx.tag_last_component

/-- Candidate pairs passed to the disambiguation collaborator for an
ambiguous alternate text (source line 282):
`[(lang, lang in default_langs) for lang in equivalent_alternatives[v]]`. -/
def amb_candidate_pairs (ctx : AttrCtx) (v : String) : List (String × Bool) :=
  (ddGet ctx.equivalent_alternatives v).map
    (fun lang => (lang, decide (lang ∈ ctx.default_langs)))

/-- Candidate pairs passed to the disambiguation collaborator for a bare
tag (source line 293): `[(l['lang'], l['default']) for l in candidate_languages]`. -/
def bare_candidate_pairs (ctx : AttrCtx) : List (String × Bool) :=
  ctx.candidate_languages.map (fun l => (l.lang, l.default))

/-- One iteration of the attribution loop (source lines 274-305) over the
tag `(k, v)`.  The returned `Bool` is true when the source executes
`return None, None`. -/
def attrStep (ctx : AttrCtx) (st : AttrState) (k v : String) : AttrState × Bool :=
  if pyStartsWith k (ctx.tagPfx ++ ":") then
    if ¬v ∈ ctx.ambiguous_alternatives then
      let norm := normalize_osm_name_tag k false
      let norm_sans_script := normalize_osm_name_tag k true
      if norm ∈ ctx.languages ∨ norm_sans_script ∈ ctx.languages then
        ({ st with name_language := ddAppend st.name_language norm v }, false)
      else (st, false)
    else if ¬v ∈ st.ambiguous_already_seen then
      let langs := amb_candidate_pairs ctx v
      let lang := ctx.disambiguate v langs
      let st1 := { st with calls := st.calls ++ [(v, langs)] }
      let st2 :=
        if ¬lang = AMBIGUOUS_LANGUAGE ∧ ¬lang = UNKNOWN_LANGUAGE then
          { st1 with name_language := ddAppend st1.name_language lang v }
        else st1
      ({ st2 with ambiguous_already_seen := st2.ambiguous_already_seen ++ [v] }, false)
    else (st, false)
  else if ¬ctx.has_alternate_names ∧ bare_tag_guard ctx k then
    if ctx.num_langs = 1 then
      ({ st with
          name_language := ddAppend st.name_language (headLang ctx.candidate_languages) v },
        false)
    else
      let cands := bare_candidate_pairs ctx
      let lang := ctx.disambiguate v cands
      let st1 := { st with calls := st.calls ++ [(v, cands)] }
      let default_lang := headLang ctx.candidate_languages
      if lang = AMBIGUOUS_LANGUAGE then (st1, true)
      else if lang = UNKNOWN_LANGUAGE ∧ ctx.num_defaults = 1 then
        ({ st1 with name_language := ddAppend st1.name_language default_lang v }, false)
      else if ¬lang = UNKNOWN_LANGUAGE then
        if ¬lang = default_lang ∧ lang ∈ ctx.country_langs ∧ 1 < ctx.country_defaults ∧
            0 < ctx.regional_defaults ∧ lang ∈ ctx.well_represented then
          (st1, true)
        else
          ({ st1 with name_language := ddAppend st1.name_language lang v }, false)
      else (st1, true)
  else (st, false)

/-- The attribution loop over the whole tag map; stops at the first
aborting step, mirroring `return None, None` inside the `for`. -/
def attrLoop (ctx : AttrCtx) : List (String × String) → AttrState → AttrState × Bool
  | [], st => (st, false)
  | kv :: rest, st =>
    let r := attrStep ctx st kv.1 kv.2
    if r.2 then (r.1, true) else attrLoop ctx rest r.1

/-- Result of the engine: the source's return value (`None, None` is
`none`), plus the ghost log of disambiguation calls. -/
structure AttrResult where
  result : Option (String × List (String × List String))
  calls : List (String × List (String × Bool))
deriving DecidableEq

/-- Source lines 224-307, `get_language_names`.  The unused `key` argument
is kept for signature fidelity. -/
def get_language_names (collab : Collab) (language_rtree : LanguageRTree)
    (_key : OsmKey) (value : List (String × String)) (tagPfx : String) : AttrResult :=
  match alGet value "lat", alGet value "lon" with
  | some latS, some lonS =>
    match latlon_to_floats latS lonS with
    | none => ⟨none, []⟩
    | some ll =>
      let g := language_rtree ll.1 ll.2
      if g.country = "" ∨ g.candidate_languages.isEmpty then ⟨none, []⟩
      else
        let ctx := mkAttrCtx collab g value tagPfx
        let r := attrLoop ctx value initAttrState
        if r.2 then ⟨none, r.1.calls⟩
        else ⟨some (g.country, r.1.name_language), r.1.calls⟩
  | _, _ => ⟨none, []⟩

/-! ## Training-set builders (source lines 310-755)

Each builder is embedded as a pure function from the parsed entity stream
(the output of `parse_osm` on its input file) to the list of rows it writes;
progress printing carries no data and is dropped.  `safe_encode` and the
tsv writer are encoding-level identities here, with escaping delegated to
the `tsv_string` collaborator as in the source. -/

/-- Source line 339. -/
def OSM_IGNORE_KEYS : List String := ["house"]

/-- Source lines 427-430. -/
def NAME_KEYS : List String := ["name", "addr:housename"]

/-- Source lines 431-435. -/
def COUNTRY_KEYS : List String := ["country", "country_name", "addr:country"]

/-- Source lines 436-441. -/
def POSTAL_KEYS : List String := ["postcode", "postal_code", "addr:postcode", "addr:postal_code"]

/-- Rows of `build_ways_training_data` for one entity
(source lines 325-336). -/
def ways_entity (collab : Collab) (rtree : LanguageRTree) (key : OsmKey)
    (value : List (String × String)) : List (String × String × String) :=
  match (get_language_names collab rtree key value "name").result with
  | none => []
  | some cm =>
    if cm.2.isEmpty then []
    else
      cm.2.flatMap (fun kv =>
        kv.2.filterMap (fun s =>
          if kv.1 ∈ collab.languages then some (kv.1, cm.1, collab.tsv_string s)
          else none))

/-- Source lines 310-337: the ways/streets builder drives `parse_osm` with
`allowed_types=WAYS_RELATIONS`; here it consumes the resulting stream. -/
def build_ways_training_data (collab : Collab) (rtree : LanguageRTree)
    (entities : List (OsmKey × List (String × String))) : List (String × String × String) :=
  entities.flatMap (fun e => ways_entity collab rtree e.1 e.2)

/-- Rows of `build_address_training_data` for one entity
(source lines 637-651). -/
def address_entity (collab : Collab) (rtree : LanguageRTree) (key : OsmKey)
    (value : List (String × String)) : List (String × String × String) :=
  match (get_language_names collab rtree key value "addr:street").result with
  | none => []
  | some cm =>
    if cm.2.isEmpty then []
    else
      cm.2.flatMap (fun kv =>
        kv.2.filterMap (fun s =>
          let s := pyStripAll s
          if s.data.isEmpty then none
          else if kv.1 ∈ collab.languages then some (kv.1, cm.1, collab.tsv_string s)
          else none))

/-- Source lines 624-653, `build_address_training_data`. -/
def build_address_training_data (collab : Collab) (rtree : LanguageRTree)
    (entities : List (OsmKey × List (String × String))) : List (String × String × String) :=
  entities.flatMap (fun e => address_entity collab rtree e.1 e.2)

/-- Venue type selection (source lines 669-677): try `amenity` then
`building`, skipping bare yes/y markers and empty values. -/
def venue_type_of (value : List (String × String)) : Option String :=
  let check := fun (key : String) =>
    let amenity := pyStripAll ((alGet value key).getD "")
    if amenity = "yes" ∨ amenity = "y" then none
    else if ¬amenity.data.isEmpty then some (key ++ ":" ++ amenity) else none
  match check "amenity" with
  | some t => some t
  | none => check "building"

/-- Rows of `build_venue_training_data` for one entity
(source lines 664-689). -/
def venue_entity (collab : Collab) (rtree : LanguageRTree) (key : OsmKey)
    (value : List (String × String)) : List (String × String × String × String) :=
  match (get_language_names collab rtree key value "name").result with
  | none => []
  | some cm =>
    if cm.2.isEmpty then []
    else
      match venue_type_of value with
      | none => []
      | some vt =>
        cm.2.flatMap (fun kv =>
          kv.2.filterMap (fun s =>
            let s := pyStripAll s
            if kv.1 ∈ collab.languages then some (kv.1, cm.1, vt, collab.tsv_string s)
            else none))

/-- Source lines 658-691, `build_venue_training_data`. -/
def build_venue_training_data (collab : Collab) (rtree : LanguageRTree)
    (entities : List (OsmKey × List (String × String))) :
    List (String × String × String × String) :=
  entities.flatMap (fun e => venue_entity collab rtree e.1 e.2)

/-- Per-language localization of a tag bag in the limited builder
(source lines 487-493): iterate the keys captured at entry; a field whose
`key:lang` override is still present in the mutating dict takes the
override's current value; otherwise the field is deleted unless the entity
has a single attributed language. -/
def limited_localize_step (lang : String) (single_language : Bool)
    (d : List (String × String)) (k : String) : List (String × String) :=
  let namespaced := k ++ ":" ++ lang
  match alGet d namespaced with
  | some nv => alSet d k nv
  | none => if ¬single_language then alPop d k else d

/-- The per-language localization loop of the limited builder
(source lines 487-493). -/
def limited_localize (value : List (String × String)) (lang : String)
    (single_language : Bool) : List (String × String) :=
  (value.map (fun kv => kv.1)).foldl (limited_localize_step lang single_language) value

/-- Output of the limited builder on one entity: its rows, plus a ghost log
of the (language, tag bag) arguments passed to the formatter collaborator.
The log does not exist in the source and influences nothing. -/
structure LimitedOutput where
  rows : List (String × String × String)
  formatter_calls : List (String × List (String × String))
deriving DecidableEq

/-- Per-language step of the limited builder's output loop
(source lines 483-502): skip unknown language codes, localize the bag,
skip the language when the bag becomes empty, else log the formatter call
and append a row when the formatter renders. -/
def limited_row_step (collab : Collab) (country : String)
    (value : List (String × String)) (single_language : Bool)
    (acc : LimitedOutput) (lv : String × List String) : LimitedOutput :=
  if ¬lv.1 ∈ collab.languages then acc
  else
    let address_dict := limited_localize value lv.1 single_language
    if address_dict.isEmpty then acc
    else
      let acc1 := { acc with formatter_calls := acc.formatter_calls ++ [(lv.1, address_dict)] }
      match collab.format_address country address_dict false with
      | some fa => { acc1 with rows := acc1.rows ++ [(lv.1, country, collab.tsv_string fa)] }
      | none => acc1

/-- Rows of `build_address_format_training_data_limited` for one entity
(source lines 466-506). -/
def limited_entity (collab : Collab) (rtree : LanguageRTree) (key : OsmKey)
    (value : List (String × String)) : LimitedOutput :=
  match alGet value "lat", alGet value "lon" with
  | some latS, some lonS =>
    match latlon_to_floats latS lonS with
    | none => ⟨[], []⟩
    | some _ =>
      let value := (NAME_KEYS ++ COUNTRY_KEYS ++ POSTAL_KEYS ++ OSM_IGNORE_KEYS).foldl alPop value
      if value.isEmpty then ⟨[], []⟩
      else
        match (get_language_names collab rtree key value "addr:street").result with
        | none => ⟨[], []⟩
        | some cm =>
          if cm.2.isEmpty then ⟨[], []⟩
          else
            let single_language := cm.2.length = 1
            cm.2.foldl (limited_row_step collab cm.1 value single_language) ⟨[], []⟩
  | _, _ => ⟨[], []⟩

/-- Source lines 444-506, `build_address_format_training_data_limited`. -/
def build_address_format_training_data_limited (collab : Collab) (rtree : LanguageRTree)
    (entities : List (OsmKey × List (String × String))) : List (String × String × String) :=
  entities.flatMap (fun e => (limited_entity collab rtree e.1 e.2).rows)

/-- Rows of `build_address_format_training_data` for one entity
(source lines 386-424).  Rows are rendered as field lists because the
tagged and untagged modes write different shapes.  In tagged mode with
several candidate languages the source skips the entity when `addr:street`
is absent before assigning `language`, which is therefore always set when
a tagged row is written; `language.getD ""` renders that invariant. -/
def format_entity (collab : Collab) (rtree : LanguageRTree)
    (value : List (String × String)) (tag_components : Bool) : List (List String) :=
  match alGet value "lat", alGet value "lon" with
  | some latS, some lonS =>
    match latlon_to_floats latS lonS with
    | none => []
    | some ll =>
      let g := rtree ll.1 ll.2
      if g.country = "" ∨ g.candidate_languages.isEmpty then []
      else
        let value := OSM_IGNORE_KEYS.foldl alPop value
        if tag_components ∧ ¬g.candidate_languages.length = 1 ∧
            (alGet value "addr:street").isNone then []
        else
          let language : Option String :=
            if tag_components then
              if g.candidate_languages.length = 1 then some (headLang g.candidate_languages)
              else
                some (collab.disambiguate_language ((alGet value "addr:street").getD "")
                  (g.candidate_languages.map (fun l => (l.lang, l.default))))
            else none
          match collab.format_address g.country value tag_components with
          | none => []
          | some fa =>
            let fa := collab.tsv_string fa
            if fa.data.isEmpty ∨ (pyStripAll fa).data.isEmpty then []
            else if tag_components then [[language.getD "", g.country, fa]] else [[fa]]
  | _, _ => []

/-- Source lines 349-424, `build_address_format_training_data`. -/
def build_address_format_training_data (collab : Collab) (rtree : LanguageRTree)
    (entities : List (OsmKey × List (String × String))) (tag_components : Bool) :
    List (List String) :=
  entities.flatMap (fun e => format_entity collab rtree e.2 tag_components)

/-! ## Toponym builder (source lines 526-621) -/

/-- First key of the country's official-language table,
`official.iterkeys().next()` guarded by `len(official) > 0`
(source lines 564-566). -/
def toponym_top_lang (collab : Collab) (country : String) : Option String :=
  let official := collab.official_languages country
  if 0 < official.length then some ((official.headD ("", false)).1) else none

/-- Default language set of the country, narrowed to exclude
well-represented languages when the top language is itself not
well-represented and several defaults exist (source lines 558-570). -/
def toponym_default_langs (collab : Collab) (country : String) : List String :=
  let official := collab.official_languages country
  let d0 := ((official.filter (fun e => e.2)).map (fun e => e.1)).dedup
  match toponym_top_lang collab country with
  | some t =>
    if ¬t ∈ collab.well_represented ∧ 1 < d0.length then
      d0.filter (fun l => ¬l ∈ collab.well_represented)
    else d0
  | none => d0

/-- Concatenated language entries of all regional polygons
(source line 562). -/
def toponym_regional_langs (g : GeoLookup) : List CandidateLanguage :=
  (g.language_props.filter (fun p => 0 < p.admin_level)).flatMap (fun p => p.languages)

/-- Valid language set of the toponym builder (source lines 572-583):
candidates minus well-represented languages whose origin countries do not
include this one, unioned with the narrowed defaults. -/
def toponym_valid_languages (collab : Collab) (g : GeoLookup) : List String :=
  let valid0 := (g.candidate_languages.map (fun l => l.lang)).dedup
  let valid1 := valid0.filter (fun l =>
    ¬(l ∈ collab.well_represented ∧ ¬g.country ∈ collab.wrlc l))
  let dl := toponym_default_langs collab g.country
  valid1 ++ dl.filter (fun l => ¬l ∈ valid1)

/-- Language resolved from a qualified tag key (source lines 594-602):
the raw suffix when known, else the script-stripped suffix when known. -/
def toponym_tag_lang (collab : Collab) (k : String) : Option String :=
  let norm := normalize_osm_name_tag k false
  let norm_sans_script := normalize_osm_name_tag k true
  if norm ∈ collab.languages then some norm
  else if norm_sans_script ∈ collab.languages then some norm_sans_script
  else none

/-- One iteration of the qualified-name loop (source lines 590-606); the
flag records `have_qualified_names`. -/
def toponym_qualified_step (collab : Collab) (valid : List String)
    (acc : List (Option String × List String) × Bool) (kv : String × String) :
    List (Option String × List String) × Bool :=
  if ¬pyStartsWith kv.1 "name:" then acc
  else
    match toponym_tag_lang collab kv.1 with
    | none => acc
    | some lang =>
      if lang ∈ valid then (ddAppend acc.1 (some lang) kv.2, true) else acc

/-- Attribution part of the toponym builder for one entity
(source lines 543-609).  Keys of the resulting map are `Option String`
because the last-resort append files the bare name under `top_lang`,
which is `None` when the country has no official-language entry. -/
def toponym_entity (collab : Collab) (rtree : LanguageRTree)
    (value : List (String × String)) :
    Option (String × List (Option String × List String)) :=
  if ¬value.any (fun kv => pyStartsWith kv.1 "name") then none
  else
    match alGet value "lat", alGet value "lon" with
    | some latS, some lonS =>
      match latlon_to_floats latS lonS with
      | none => none
      | some ll =>
        let g := rtree ll.1 ll.2
        if g.country = "" ∨ g.candidate_languages.isEmpty then none
        else
          let valid := toponym_valid_languages collab g
          if valid.isEmpty then none
          else
            let folded := value.foldl (toponym_qualified_step collab valid) ([], false)
            let nl :=
              if ¬folded.2 ∧ (toponym_regional_langs g).length ≤ 1 ∧
                  (alGet value "name").isSome ∧ valid.length = 1 then
                ddAppend folded.1 (toponym_top_lang collab g.country)
                  ((alGet value "name").getD "")
              else folded.1
            some (g.country, nl)
    | _, _ => none

/-- Source lines 526-621, `build_toponym_training_data`. -/
def build_toponym_training_data (collab : Collab) (rtree : LanguageRTree)
    (entities : List (OsmKey × List (String × String))) :
    List (Option String × String × String) :=
  entities.flatMap (fun e =>
    match toponym_entity collab rtree e.2 with
    | none => []
    | some cm =>
      cm.2.flatMap (fun kv =>
        kv.2.filterMap (fun s =>
          let s := pyStripAll s
          if s.data.isEmpty then none
          else some (kv.1, cm.1, collab.tsv_string s))))

/-! ## Concrete fixtures used by counterexamples and witnesses -/

/-- Constant geo index returning the same lookup at every point. -/
def constRtree (g : GeoLookup) : LanguageRTree := fun _ _ => g

/-- Fixture for the tagged formatted-address builder: two candidate
languages, a classifier that always answers "ambiguous", a formatter that
always renders. -/
def collabC3 : Collab :=
  { languages := ["fr", "ar"]
    disambiguate_language := fun _ _ => AMBIGUOUS_LANGUAGE
    well_represented := []
    wrlc := fun _ => []
    official_languages := fun _ => []
    format_address := fun _ _ _ => some "Rue Foo/road"
    tsv_string := fun s => s }

/-- Country xx with ranked candidates fr (default) and ar. -/
def geoC3 : GeoLookup := ⟨"xx", [⟨"fr", true⟩, ⟨"ar", false⟩], [⟨0, [⟨"fr", true⟩]⟩]⟩

/-- An address entity with coordinates and a street tag. -/
def entityC3 : List (String × String) :=
  [("lat", "40.5"), ("lon", "3.5"), ("addr:street", "Rue Foo")]

/-- Fixture for the bare-tag well-represented guard: the classifier resolves
to en, which is well represented but absent from the country-level polygon
languages. -/
def collabC4 : Collab :=
  { languages := ["fr", "en", "de", "oc"]
    disambiguate_language := fun _ _ => "en"
    well_represented := ["en"]
    wrlc := fun _ => []
    official_languages := fun _ => []
    format_address := fun _ _ _ => none
    tsv_string := fun s => s }

/-- Country xx: candidates fr (default) and en; country polygon declares
defaults fr and de, one regional polygon declares default oc. -/
def geoC4 : GeoLookup :=
  ⟨"xx", [⟨"fr", true⟩, ⟨"en", false⟩],
    [⟨0, [⟨"fr", true⟩, ⟨"de", true⟩]⟩, ⟨2, [⟨"oc", true⟩]⟩]⟩

/-- A bare-name entity. -/
def entityC4 : List (String × String) :=
  [("lat", "40.5"), ("lon", "3.5"), ("name", "Main St")]

/-- Fixture for the script-qualified key invariant. -/
def collabC5 : Collab :=
  { languages := ["zh", "en"]
    disambiguate_language := fun _ _ => UNKNOWN_LANGUAGE
    well_represented := []
    wrlc := fun _ => []
    official_languages := fun _ => []
    format_address := fun _ _ _ => none
    tsv_string := fun s => s }

/-- Country xx with the single candidate en. -/
def geoC5 : GeoLookup := ⟨"xx", [⟨"en", true⟩], []⟩

/-- An entity whose only name tag carries a `_script`-style qualifier that
is not itself a known code. -/
def entityC5 : List (String × String) :=
  [("lat", "40.5"), ("lon", "3.5"), ("name:zh_pinyin", "Beijing")]

/-- Fixture for the toponym last resort. -/
def collabC7 : Collab :=
  { languages := ["fr", "oc", "br"]
    disambiguate_language := fun _ _ => UNKNOWN_LANGUAGE
    well_represented := []
    wrlc := fun _ => []
    official_languages := fun c => if c = "xx" then [("fr", true)] else []
    format_address := fun _ _ _ => none
    tsv_string := fun s => s }

/-- Country xx: single candidate fr; one country polygon; exactly one
regional polygon, which declares two language entries. -/
def geoC7 : GeoLookup :=
  ⟨"xx", [⟨"fr", true⟩],
    [⟨0, [⟨"fr", true⟩]⟩, ⟨2, [⟨"oc", true⟩, ⟨"br", false⟩]⟩]⟩

/-- A bare-name toponym entity. -/
def entityC7 : List (String × String) :=
  [("lat", "40.5"), ("lon", "3.5"), ("name", "Roazhon")]

/-- Fixture for the limited formatted-address builder. -/
def collabC8 : Collab :=
  { languages := ["en", "fr"]
    disambiguate_language := fun _ _ => UNKNOWN_LANGUAGE
    well_represented := []
    wrlc := fun _ => []
    official_languages := fun _ => []
    format_address := fun _ _ _ => some "F"
    tsv_string := fun s => s }

/-- Country xx with candidates en (default) and fr. -/
def geoC8 : GeoLookup := ⟨"xx", [⟨"en", true⟩, ⟨"fr", false⟩], []⟩

/-- An address entity with localized street values in two languages and a
city field that has no per-language override. -/
def entityC8 : List (String × String) :=
  [("lat", "40.5"), ("lon", "3.5"), ("addr:street", "Shared St"),
    ("addr:street:en", "Main St"), ("addr:street:fr", "Rue P"),
    ("addr:city", "Springfield")]

/-! ## Claim theorems -/

/-- C6 (code bug): on the DMS pair `("40 42 46 N", "74 0 21 W")` the
normalizer returns `40 + 42/60 + 46/3600` for the latitude, within 1e-3 of
40.7128 as the spec states, but returns `74 + 0/60 + 21/3600` for the
longitude: the magnitude agrees with 74.0060 within 1e-3 while the sign of
the cardinal letter W, although computed via `direction_sign`, is never
applied in the DMS branch, so the claimed value near -74.0060 is not
produced. -/
theorem C6_dms_sign_dropped :
    latlon_to_floats "40 42 46 N" "74 0 21 W" = some (73283 / 1800, 88807 / 1200) ∧
    |(73283 / 1800 : ℚ) - 407128 / 10000| < 1 / 1000 ∧
    |(88807 / 1200 : ℚ) - 740060 / 10000| < 1 / 1000 ∧
    (0 : ℚ) < 88807 / 1200 ∧
    ¬|(88807 / 1200 : ℚ) - -(740060 / 10000)| < 1 / 1000 := by
  refine ⟨?_, ?_, ?_, by norm_num, ?_⟩
  · rw [show latlon_to_floats "40 42 46 N" "74 0 21 W" =
        some (degrees_to_decimal (1 * ((40 : ℕ) : ℚ)) (1 * ((42 : ℕ) : ℚ)) (1 * ((46 : ℕ) : ℚ)),
          degrees_to_decimal (1 * ((74 : ℕ) : ℚ)) (1 * ((0 : ℕ) : ℚ)) (1 * ((21 : ℕ) : ℚ)))
      from rfl]
    norm_num [degrees_to_decimal]
  · rw [abs_lt]
    constructor <;> norm_num
  · rw [abs_lt]
    constructor <;> norm_num
  · intro h
    rw [abs_lt] at h
    have h2 := h.2
    norm_num at h2

/-- C3 counterexample: with two candidate languages, a classifier answering
"ambiguous" on the street tag and a formatter that renders, the tagged
formatted-address builder writes a row whose language field is the
ambiguous marker, so an ambiguous/unknown-marked row is written. -/
theorem C3_counterexample_tagged_marker_row :
    build_address_format_training_data collabC3 (constRtree geoC3)
        [(OsmKey.plainId 1, entityC3)] true =
      [[AMBIGUOUS_LANGUAGE, "xx", "Rue Foo/road"]] := by decide

/-- C4 counterexample: the classifier resolves the bare name to en, which
differs from the top-ranked candidate fr, is well represented, while the
country polygon declares two defaults and a regional polygon declares a
default — all four conditions of the claim — yet the engine does not return
`None`: it attributes en, because en is absent from the country-level
polygon languages and the source guard also requires
`lang in country_langs`. -/
theorem C4_counterexample_country_langs_needed :
    ¬"en" = headLang geoC4.candidate_languages ∧
    "en" ∈ collabC4.well_represented ∧
    1 < (mkAttrCtx collabC4 geoC4 entityC4 "name").country_defaults ∧
    0 < (mkAttrCtx collabC4 geoC4 entityC4 "name").regional_defaults ∧
    collabC4.disambiguate_language "Main St"
        (geoC4.candidate_languages.map (fun l => (l.lang, l.default))) = "en" ∧
    ¬"en" ∈ (mkAttrCtx collabC4 geoC4 entityC4 "name").country_langs ∧
    (get_language_names collabC4 (constRtree geoC4) (OsmKey.plainId 1)
        entityC4 "name").result = some ("xx", [("en", ["Main St"])]) := by decide

/-- C5 counterexample: the tag `name:zh_pinyin` has the known,
script-stripped suffix zh, so the engine stores its value — but under the
raw key `zh_pinyin`, which is not a known language code, contradicting the
claimed invariant that such a key is never stored. -/
theorem C5_counterexample_script_key_stored :
    (get_language_names collabC5 (constRtree geoC5) (OsmKey.plainId 1)
        entityC5 "name").result = some ("xx", [("zh_pinyin", ["Beijing"])]) ∧
    ¬"zh_pinyin" ∈ collabC5.languages := by decide

/-- C7 counterexample: the entity has a bare name, no qualified alternate,
exactly one regional polygon, and exactly one valid language — the claim's
conditions — yet the bare name is attributed to nothing, because the single
regional polygon declares two language entries and the source condition is
`len(regional_langs) <= 1` over language entries, not polygons. -/
theorem C7_counterexample_regional_entries :
    (∀ kv ∈ entityC7, pyStartsWith kv.1 "name:" = false) ∧
    (alGet entityC7 "name").isSome ∧
    (geoC7.language_props.filter (fun p => 0 < p.admin_level)).length = 1 ∧
    (toponym_valid_languages collabC7 geoC7).length = 1 ∧
    toponym_entity collabC7 (constRtree geoC7) entityC7 = some ("xx", []) := by decide

/-- C8 counterexample: the entity carries two attributed languages and a
city field without per-language override; the claim says the city falls
back to the shared value, but the builder passes the formatter bags from
which the city has been deleted. -/
theorem C8_counterexample_no_shared_fallback :
    (limited_entity collabC8 (constRtree geoC8) (OsmKey.plainId 1) entityC8).formatter_calls =
      [("en", [("addr:street", "Main St")]), ("fr", [("addr:street", "Rue P")])] ∧
    alGet entityC8 "addr:city" = some "Springfield" ∧
    (∀ kv ∈ entityC8, ¬kv.1 = "addr:city:en") ∧
    (∀ e ∈ (limited_entity collabC8 (constRtree geoC8) (OsmKey.plainId 1)
        entityC8).formatter_calls, alGet e.2 "addr:city" = none) := by decide

/-- C9: for a stream element tagged `node` whose id text denotes `n`, the
parser decodes kind and local id purely from the ranges `n < 10^15`,
`10^15 ≤ n < 2*10^15` and `n ≥ 2*10^15`, filters by membership of the
decoded kind in `allowed`, and keys the yielded entity by the bare local id
exactly when one kind is allowed. -/
theorem C9_id_offset_decoding (attrib : List (String × String))
    (children : List (String × List (String × String)))
    (idStr : String) (n : Nat) (allowed : List String)
    (hid : alGet attrib "id" = some idStr) (hn : parseNat? idStr = some n) :
    (parse_osm [⟨"node", attrib, children⟩] allowed).map Prod.fst =
      (if (if n < 10 ^ 15 then "node" else if n < 2 * 10 ^ 15 then "way" else "relation")
          ∈ allowed then
        [if allowed.length = 1 then
            OsmKey.plainId
              (if n < 10 ^ 15 then n else if n < 2 * 10 ^ 15 then n - 10 ^ 15
                else n - 2 * 10 ^ 15)
          else
            OsmKey.typed
              (if n < 10 ^ 15 then "node" else if n < 2 * 10 ^ 15 then "way" else "relation")
              (if n < 10 ^ 15 then n else if n < 2 * 10 ^ 15 then n - 10 ^ 15
                else n - 2 * 10 ^ 15)]
      else []) := by
  have hdec : decode_osm_id n "node" =
      (if n < 10 ^ 15 then n else if n < 2 * 10 ^ 15 then n - 10 ^ 15 else n - 2 * 10 ^ 15,
        if n < 10 ^ 15 then "node" else if n < 2 * 10 ^ 15 then "way" else "relation") := by
    unfold decode_osm_id WAY_OFFSET RELATION_OFFSET
    split_ifs <;> first | (exfalso; omega) | rfl
  simp only [parse_osm, List.filterMap_cons, List.filterMap_nil, hid, Option.getD_some]
  rw [hn]
  simp only [Option.getD_some, hdec]
  split_ifs with h1 h2 <;> simp_all

/-- Witness for C9 at the packed way id 10^15 + 5 from an all-kinds parse. -/
theorem C9_id_offset_decoding_witness :
    alGet [("id", "1000000000000005")] "id" = some "1000000000000005" ∧
    parseNat? "1000000000000005" = some 1000000000000005 ∧
    (parse_osm [⟨"node", [("id", "1000000000000005")], []⟩] ALL_OSM_TAGS).map Prod.fst =
      (if (if 1000000000000005 < 10 ^ 15 then "node"
          else if 1000000000000005 < 2 * 10 ^ 15 then "way" else "relation") ∈ ALL_OSM_TAGS then
        [if ALL_OSM_TAGS.length = 1 then
            OsmKey.plainId
              (if 1000000000000005 < 10 ^ 15 then 1000000000000005
                else if 1000000000000005 < 2 * 10 ^ 15 then 1000000000000005 - 10 ^ 15
                else 1000000000000005 - 2 * 10 ^ 15)
          else
            OsmKey.typed
              (if 1000000000000005 < 10 ^ 15 then "node"
                else if 1000000000000005 < 2 * 10 ^ 15 then "way" else "relation")
              (if 1000000000000005 < 10 ^ 15 then 1000000000000005
                else if 1000000000000005 < 2 * 10 ^ 15 then 1000000000000005 - 10 ^ 15
                else 1000000000000005 - 2 * 10 ^ 15)]
      else []) :=
  ⟨by decide, by decide,
    C9_id_offset_decoding [("id", "1000000000000005")] [] "1000000000000005"
      1000000000000005 ALL_OSM_TAGS (by decide) (by decide)⟩

/-! ## Rows of the language-filtered builders carry known codes -/

/-- Helper: every ways row of one entity passes the `k in languages` write
guard. -/
theorem ways_entity_lang (collab : Collab) (rtree : LanguageRTree) (key : OsmKey)
    (value : List (String × String)) :
    ∀ r ∈ ways_entity collab rtree key value, r.1 ∈ collab.languages := by
  intro r hr
  unfold ways_entity at hr
  rcases h : (get_language_names collab rtree key value "name").result with _ | cm <;>
    rw [h] at hr
  · simp at hr
  · dsimp only at hr
    split_ifs at hr with h1
    · simp at hr
    · simp only [List.mem_flatMap, List.mem_filterMap] at hr
      obtain ⟨kv, _, s, _, hsome⟩ := hr
      split_ifs at hsome with h2
      all_goals cases hsome
      all_goals exact h2

/-- Helper: every address-street row of one entity passes the write guard. -/
theorem address_entity_lang (collab : Collab) (rtree : LanguageRTree) (key : OsmKey)
    (value : List (String × String)) :
    ∀ r ∈ address_entity collab rtree key value, r.1 ∈ collab.languages := by
  intro r hr
  unfold address_entity at hr
  rcases h : (get_language_names collab rtree key value "addr:street").result with _ | cm <;>
    rw [h] at hr
  · simp at hr
  · dsimp only at hr
    split_ifs at hr with h1
    · simp at hr
    · simp only [List.mem_flatMap, List.mem_filterMap] at hr
      obtain ⟨kv, _, s, _, hsome⟩ := hr
      split_ifs at hsome with h2 h3
      all_goals cases hsome
      all_goals exact h3

/-- Helper: every venue row of one entity passes the write guard. -/
theorem venue_entity_lang (collab : Collab) (rtree : LanguageRTree) (key : OsmKey)
    (value : List (String × String)) :
    ∀ r ∈ venue_entity collab rtree key value, r.1 ∈ collab.languages := by
  intro r hr
  unfold venue_entity at hr
  rcases h : (get_language_names collab rtree key value "name").result with _ | cm <;>
    rw [h] at hr
  · simp at hr
  · dsimp only at hr
    split_ifs at hr with h1
    · simp at hr
    · rcases h2 : venue_type_of value with _ | vt <;> rw [h2] at hr
      · simp at hr
      · simp only [List.mem_flatMap, List.mem_filterMap] at hr
        obtain ⟨kv, _, s, _, hsome⟩ := hr
        split_ifs at hsome with h3
        all_goals cases hsome
        all_goals exact h3

/-- Helper: the limited builder's row loop only appends rows whose language
passed the `lang not in languages` skip. -/
theorem limited_fold_rows_lang (collab : Collab) (country : String)
    (value : List (String × String)) (single_language : Bool) :
    ∀ (nl : List (String × List String)) (acc : LimitedOutput),
      (∀ r ∈ acc.rows, r.1 ∈ collab.languages) →
      ∀ r ∈ (nl.foldl (limited_row_step collab country value single_language) acc).rows,
        r.1 ∈ collab.languages := by
  intro nl
  induction nl with
  | nil => intro acc hacc; simpa using hacc
  | cons lv rest ih =>
    intro acc hacc
    rw [List.foldl_cons]
    refine ih _ ?_
    intro r hr
    unfold limited_row_step at hr
    dsimp only at hr
    split_ifs at hr with h1 h2
    all_goals try exact hacc r hr
    rcases h3 : collab.format_address country
        (limited_localize value lv.1 single_language) false with _ | fa <;>
      rw [h3] at hr
    · exact hacc r hr
    · rcases List.mem_append.mp hr with hr2 | hr2
      · exact hacc r hr2
      · rw [List.mem_singleton] at hr2
        subst hr2
        exact h1

/-- Helper: every limited-builder row of one entity carries a known code. -/
theorem limited_entity_rows_lang (collab : Collab) (rtree : LanguageRTree) (key : OsmKey)
    (value : List (String × String)) :
    ∀ r ∈ (limited_entity collab rtree key value).rows, r.1 ∈ collab.languages := by
  intro r hr
  unfold limited_entity at hr
  rcases h1 : alGet value "lat" with _ | latS <;> rcases h2 : alGet value "lon" with _ | lonS <;>
    simp only [h1, h2] at hr
  · simp at hr
  · simp at hr
  · simp at hr
  · rcases h3 : latlon_to_floats latS lonS with _ | ll <;> rw [h3] at hr
    · simp at hr
    · dsimp only at hr
      split_ifs at hr with h4
      · simp at hr
      · rcases h5 : (get_language_names collab rtree key
            ((NAME_KEYS ++ COUNTRY_KEYS ++ POSTAL_KEYS ++ OSM_IGNORE_KEYS).foldl alPop value)
            "addr:street").result with _ | cm <;> rw [h5] at hr
        · simp at hr
        · dsimp only at hr
          split_ifs at hr with h6
          · simp at hr
          · exact limited_fold_rows_lang collab cm.1 _ _ cm.2 ⟨[], []⟩ (by simp) r hr

/-- C10: in the ways/streets, address-streets, venues and limited
formatted-address builders, every written row's language field belongs to
the known-language set: each of these builders re-checks membership before
writing, so even a key outside the known set in the attribution result
never reaches the output. -/
theorem C10_output_language_known :
    (∀ (collab : Collab) (rtree : LanguageRTree)
        (entities : List (OsmKey × List (String × String))),
      ∀ r ∈ build_ways_training_data collab rtree entities, r.1 ∈ collab.languages) ∧
    (∀ (collab : Collab) (rtree : LanguageRTree)
        (entities : List (OsmKey × List (String × String))),
      ∀ r ∈ build_address_training_data collab rtree entities, r.1 ∈ collab.languages) ∧
    (∀ (collab : Collab) (rtree : LanguageRTree)
        (entities : List (OsmKey × List (String × String))),
      ∀ r ∈ build_venue_training_data collab rtree entities, r.1 ∈ collab.languages) ∧
    (∀ (collab : Collab) (rtree : LanguageRTree)
        (entities : List (OsmKey × List (String × String))),
      ∀ r ∈ build_address_format_training_data_limited collab rtree entities,
        r.1 ∈ collab.languages) := by
  refine ⟨?_, ?_, ?_, ?_⟩ <;>
    (intro collab rtree entities r hr
     simp only [build_ways_training_data, build_address_training_data,
       build_venue_training_data, build_address_format_training_data_limited,
       List.mem_flatMap] at hr
     obtain ⟨e, _, hre⟩ := hr)
  · exact ways_entity_lang collab rtree e.1 e.2 r hre
  · exact address_entity_lang collab rtree e.1 e.2 r hre
  · exact venue_entity_lang collab rtree e.1 e.2 r hre
  · exact limited_entity_rows_lang collab rtree e.1 e.2 r hre

/-- Fixture for the output-language witness: one known language, a single
default candidate. -/
def collabW : Collab :=
  { languages := ["en"]
    disambiguate_language := fun _ _ => UNKNOWN_LANGUAGE
    well_represented := []
    wrlc := fun _ => []
    official_languages := fun _ => []
    format_address := fun _ _ _ => some "F"
    tsv_string := fun s => s }

/-- Country xx with the single default candidate en. -/
def geoW : GeoLookup := ⟨"xx", [⟨"en", true⟩], []⟩

/-- A named way entity. -/
def entityW : List (String × String) :=
  [("lat", "40.5"), ("lon", "3.5"), ("name", "Foo")]

/-- An addressed entity. -/
def entityWA : List (String × String) :=
  [("lat", "40.5"), ("lon", "3.5"), ("addr:street", "Bar")]

/-- A venue entity. -/
def entityWV : List (String × String) :=
  [("lat", "40.5"), ("lon", "3.5"), ("name", "Foo"), ("amenity", "pub")]

/-- Witness for C10: each of the four builders emits a row on the fixture,
and the theorem places each row's language in the known set. -/
theorem C10_output_language_known_witness :
    (("en", "xx", "Foo") ∈ build_ways_training_data collabW (constRtree geoW)
        [(OsmKey.plainId 1, entityW)] ∧
      ("en", "xx", "Foo").1 ∈ collabW.languages) ∧
    (("en", "xx", "Bar") ∈ build_address_training_data collabW (constRtree geoW)
        [(OsmKey.plainId 1, entityWA)] ∧
      ("en", "xx", "Bar").1 ∈ collabW.languages) ∧
    (("en", "xx", "amenity:pub", "Foo") ∈ build_venue_training_data collabW (constRtree geoW)
        [(OsmKey.plainId 1, entityWV)] ∧
      ("en", "xx", "amenity:pub", "Foo").1 ∈ collabW.languages) ∧
    (("en", "xx", "F") ∈ build_address_format_training_data_limited collabW (constRtree geoW)
        [(OsmKey.plainId 1, entityWA)] ∧
      ("en", "xx", "F").1 ∈ collabW.languages) :=
  ⟨⟨by decide, C10_output_language_known.1 collabW (constRtree geoW)
      [(OsmKey.plainId 1, entityW)] ("en", "xx", "Foo") (by decide)⟩,
    ⟨by decide, C10_output_language_known.2.1 collabW (constRtree geoW)
      [(OsmKey.plainId 1, entityWA)] ("en", "xx", "Bar") (by decide)⟩,
    ⟨by decide, C10_output_language_known.2.2.1 collabW (constRtree geoW)
      [(OsmKey.plainId 1, entityWV)] ("en", "xx", "amenity:pub", "Foo") (by decide)⟩,
    ⟨by decide, C10_output_language_known.2.2.2 collabW (constRtree geoW)
      [(OsmKey.plainId 1, entityWA)] ("en", "xx", "F") (by decide)⟩⟩

/-! ## Attribution-loop lemma kit -/

/-- Appending to one bucket leaves the others unchanged. -/
theorem ddGet_ddAppend_ne {α : Type} [DecidableEq α] (m : List (α × List String))
    (k k1 : α) (v : String) (h : ¬k1 = k) : ddGet (ddAppend m k v) k1 = ddGet m k1 := by
  induction m with
  | nil =>
    simp only [ddAppend, ddGet]
    rw [if_neg (fun h2 => h h2.symm)]
  | cons e rest ih =>
    obtain ⟨ek, evs⟩ := e
    by_cases h2 : ek = k
    · subst h2
      simp only [ddAppend, if_pos rfl, ddGet]
      rw [if_neg (fun h3 => h h3.symm), if_neg (fun h3 => h h3.symm)]
    · simp only [ddAppend, if_neg h2, ddGet]
      by_cases h3 : ek = k1
      · rw [if_pos h3, if_pos h3]
      · rw [if_neg h3, if_neg h3, ih]

/-- Appending to a bucket appends to its contents. -/
theorem ddGet_ddAppend_self {α : Type} [DecidableEq α] (m : List (α × List String))
    (k : α) (v : String) : ddGet (ddAppend m k v) k = ddGet m k ++ [v] := by
  induction m with
  | nil => simp [ddAppend, ddGet]
  | cons e rest ih =>
    obtain ⟨ek, evs⟩ := e
    by_cases h2 : ek = k
    · subst h2
      simp [ddAppend, ddGet]
    · simp [ddAppend, ddGet, h2, ih]

/-- Bucket membership survives an append. -/
theorem mem_ddGet_ddAppend {α : Type} [DecidableEq α] {m : List (α × List String)}
    {k1 : α} {x : String} (k : α) (v : String) (h : x ∈ ddGet m k1) :
    x ∈ ddGet (ddAppend m k v) k1 := by
  by_cases hk : k1 = k
  · subst hk
    rw [ddGet_ddAppend_self]
    exact List.mem_append_left _ h
  · rw [ddGet_ddAppend_ne m k k1 v hk]
    exact h

/-- A key of an appended map is an old key or the appended key. -/
theorem ddAppend_keys_sub {α : Type} [DecidableEq α] (m : List (α × List String))
    (k : α) (v : String) :
    ∀ x ∈ (ddAppend m k v).map Prod.fst, x ∈ m.map Prod.fst ∨ x = k := by
  induction m with
  | nil => simp [ddAppend]
  | cons e rest ih =>
    obtain ⟨ek, evs⟩ := e
    by_cases h2 : ek = k
    · subst h2
      intro x hx
      rw [show ddAppend ((ek, evs) :: rest) ek v = (ek, evs ++ [v]) :: rest from by
        simp [ddAppend]] at hx
      simp only [List.map_cons, List.mem_cons] at hx
      rcases hx with h5 | h5
      · exact Or.inl (by simp only [List.map_cons, List.mem_cons]; exact Or.inl h5)
      · exact Or.inl (by simp only [List.map_cons, List.mem_cons]; exact Or.inr h5)
    · intro x hx
      rw [show ddAppend ((ek, evs) :: rest) k v = (ek, evs) :: ddAppend rest k v from by
        simp [ddAppend, h2]] at hx
      simp only [List.map_cons, List.mem_cons] at hx
      rcases hx with h5 | h5
      · exact Or.inl (by simp only [List.map_cons, List.mem_cons]; exact Or.inl h5)
      · rcases ih x h5 with hx2 | hx2
        · exact Or.inl (by simp only [List.map_cons, List.mem_cons]; exact Or.inr hx2)
        · exact Or.inr hx2

/-- A value absent from every bucket stays absent when a different value is
appended. -/
theorem ddAppend_not_mem_vals {α : Type} [DecidableEq α] {m : List (α × List String)}
    {x : String} (k : α) (v : String) (hx : ∀ e ∈ m, ¬x ∈ e.2) (hne : ¬v = x) :
    ∀ e ∈ ddAppend m k v, ¬x ∈ e.2 := by
  induction m with
  | nil =>
    rintro e he
    rw [show ddAppend ([] : List (α × List String)) k v = [(k, [v])] from rfl,
      List.mem_singleton] at he
    subst he
    simp only [List.mem_singleton]
    exact fun h3 => hne h3.symm
  | cons e0 rest ih =>
    obtain ⟨ek, evs⟩ := e0
    by_cases h2 : ek = k
    · subst h2
      rintro e he
      rw [show ddAppend ((ek, evs) :: rest) ek v = (ek, evs ++ [v]) :: rest from by
        simp [ddAppend]] at he
      rcases List.mem_cons.mp he with rfl | he2
      · intro hmem
        rcases List.mem_append.mp hmem with h3 | h3
        · exact hx (ek, evs) (by simp) h3
        · exact hne (List.mem_singleton.mp h3).symm
      · exact hx e (List.mem_cons_of_mem _ he2)
    · rintro e he
      rw [show ddAppend ((ek, evs) :: rest) k v = (ek, evs) :: ddAppend rest k v from by
        simp [ddAppend, h2]] at he
      rcases List.mem_cons.mp he with rfl | he2
      · exact hx (ek, evs) (by simp)
      · exact ih (fun e2 he3 => hx e2 (List.mem_cons_of_mem _ he3)) e he2

/-- Appending one value raises the total occurrence count of `x` by one
exactly when the value is `x`. -/
theorem ddAppend_count {α : Type} [DecidableEq α] (m : List (α × List String))
    (k : α) (v x : String) :
    ((ddAppend m k v).flatMap (fun e => e.2)).count x =
      (m.flatMap (fun e => e.2)).count x + (if v = x then 1 else 0) := by
  induction m with
  | nil =>
    rw [show ddAppend ([] : List (α × List String)) k v = [(k, [v])] from rfl]
    by_cases hvx : v = x <;> simp [hvx, List.count_cons]
  | cons e0 rest ih =>
    obtain ⟨ek, evs⟩ := e0
    by_cases h2 : ek = k
    · subst h2
      rw [show ddAppend ((ek, evs) :: rest) ek v = (ek, evs ++ [v]) :: rest from by
        simp [ddAppend]]
      simp only [List.flatMap_cons, List.count_append]
      by_cases hvx : v = x <;> (simp [hvx, List.count_cons]; try omega)
    · rw [show ddAppend ((ek, evs) :: rest) k v = (ek, evs) :: ddAppend rest k v from by
        simp [ddAppend, h2]]
      simp only [List.flatMap_cons, List.count_append, ih]
      omega

/-- When the entity has alternates, no step of the attribution loop aborts:
every `return None, None` lies in the bare-tag branch, which is guarded by
`not has_alternate_names`. -/
theorem attrStep_no_abort (ctx : AttrCtx) (h : ctx.has_alternate_names = true)
    (st : AttrState) (k v : String) : (attrStep ctx st k v).2 = false := by
  unfold attrStep
  dsimp only
  split_ifs with h1 h2 h3 h4 h5 h6 h7 h8 h9 <;>
    first
      | rfl
      | (exact absurd h (by simp_all))

/-- With alternates present the loop runs to completion without aborting. -/
theorem attrLoop_no_abort (ctx : AttrCtx) (h : ctx.has_alternate_names = true) :
    ∀ (l : List (String × String)) (st : AttrState), (attrLoop ctx l st).2 = false := by
  intro l
  induction l with
  | nil => intro st; rfl
  | cons kv rest ih =>
    intro st
    unfold attrLoop
    dsimp only
    rw [attrStep_no_abort ctx h st kv.1 kv.2]
    rw [if_neg (by simp)]
    exact ih _

/-- Invariant preservation along the loop: a property preserved by every
step holds of the final state, aborted or not. -/
theorem attrLoop_inv (ctx : AttrCtx) (P : AttrState → Prop)
    (hstep : ∀ st k v, P st → P (attrStep ctx st k v).1) :
    ∀ (l : List (String × String)) (st : AttrState), P st → P (attrLoop ctx l st).1 := by
  intro l
  induction l with
  | nil => intro st h; exact h
  | cons kv rest ih =>
    intro st h
    unfold attrLoop
    dsimp only
    by_cases hab : (attrStep ctx st kv.1 kv.2).2 = true
    · rw [if_pos hab]
      exact hstep st kv.1 kv.2 h
    · rw [if_neg hab]
      exact ih _ (hstep st kv.1 kv.2 h)

/-- A property established by the step on some processed pair (from any
prior state) and preserved by every step holds of the final state, when no
step aborts. -/
theorem attrLoop_estab (ctx : AttrCtx) (P : AttrState → Prop)
    (hstep : ∀ st k v, P st → P (attrStep ctx st k v).1)
    (k0 v0 : String) (hmk : ∀ st, P (attrStep ctx st k0 v0).1)
    (hnoab : ∀ st k v, (attrStep ctx st k v).2 = false) :
    ∀ (l : List (String × String)) (st : AttrState), (k0, v0) ∈ l →
      P (attrLoop ctx l st).1 := by
  intro l
  induction l with
  | nil => intro st h; cases h
  | cons kv rest ih =>
    intro st h
    unfold attrLoop
    dsimp only
    rw [hnoab st kv.1 kv.2, if_neg (by simp)]
    rcases List.mem_cons.mp h with heq | hmem
    · rw [← heq]
      exact attrLoop_inv ctx P hstep rest _ (hmk st)
    · exact ih _ hmem

/-- When some pair of the tag list makes the step abort from every state,
the loop aborts. -/
theorem attrLoop_abort_of_mem (ctx : AttrCtx) (k0 v0 : String)
    (habort : ∀ st, (attrStep ctx st k0 v0).2 = true) :
    ∀ (l : List (String × String)) (st : AttrState), (k0, v0) ∈ l →
      (attrLoop ctx l st).2 = true := by
  intro l
  induction l with
  | nil => intro st h; cases h
  | cons kv rest ih =>
    intro st h
    unfold attrLoop
    dsimp only
    by_cases hab : (attrStep ctx st kv.1 kv.2).2 = true
    · rw [if_pos hab]
    · rw [if_neg hab]
      rcases List.mem_cons.mp h with heq | hmem
      · rw [← heq] at hab
        exact absurd (habort st) hab
      · exact ih _ hmem

/-- Each step only appends to the seen set. -/
theorem attrStep_seen_extends (ctx : AttrCtx) (st : AttrState) (k v : String) :
    ∃ t, (attrStep ctx st k v).1.ambiguous_already_seen = st.ambiguous_already_seen ++ t := by
  unfold attrStep
  dsimp only
  split_ifs <;>
    first
      | exact ⟨[], (List.append_nil _).symm⟩
      | exact ⟨[v], rfl⟩

/-- Each step only appends to the call log. -/
theorem attrStep_calls_extends (ctx : AttrCtx) (st : AttrState) (k v : String) :
    ∃ t, (attrStep ctx st k v).1.calls = st.calls ++ t := by
  unfold attrStep
  dsimp only
  split_ifs <;>
    first
      | exact ⟨[], (List.append_nil _).symm⟩
      | exact ⟨_, rfl⟩

/-- Each step leaves the name map unchanged or appends one value to one
bucket. -/
theorem attrStep_map_cases (ctx : AttrCtx) (st : AttrState) (k v : String) :
    (attrStep ctx st k v).1.name_language = st.name_language ∨
      ∃ L, (attrStep ctx st k v).1.name_language = ddAppend st.name_language L v := by
  unfold attrStep
  dsimp only
  split_ifs <;>
    first
      | exact Or.inl rfl
      | exact Or.inr ⟨_, rfl⟩

/-- Generic no-abort transfer from steps to the loop. -/
theorem attrLoop_no_abort_of_step (ctx : AttrCtx)
    (h : ∀ (st : AttrState) (k v : String), (attrStep ctx st k v).2 = false) :
    ∀ (l : List (String × String)) (st : AttrState), (attrLoop ctx l st).2 = false := by
  intro l
  induction l with
  | nil => intro st; rfl
  | cons kv rest ih =>
    intro st
    unfold attrLoop
    dsimp only
    rw [h st kv.1 kv.2, if_neg (by simp)]
    exact ih _

/-- Bucket membership survives any step. -/
theorem attrStep_mem_preserved (ctx : AttrCtx) (L x : String) (st : AttrState)
    (k v : String) (h : x ∈ ddGet st.name_language L) :
    x ∈ ddGet (attrStep ctx st k v).1.name_language L := by
  rcases attrStep_map_cases ctx st k v with hc | ⟨L2, hc⟩ <;> rw [hc]
  · exact h
  · exact mem_ddGet_ddAppend _ _ h

/-- Unfolding of the engine once the geolocation preliminaries hold. -/
theorem get_language_names_run (collab : Collab) (rtree : LanguageRTree) (key : OsmKey)
    (value : List (String × String)) (tagPfx latS lonS : String) (ll : ℚ × ℚ)
    (hlat : alGet value "lat" = some latS) (hlon : alGet value "lon" = some lonS)
    (hll : latlon_to_floats latS lonS = some ll)
    (hc : ¬(rtree ll.1 ll.2).country = "")
    (hcl : ¬(rtree ll.1 ll.2).candidate_languages.isEmpty = true) :
    get_language_names collab rtree key value tagPfx =
      (if (attrLoop (mkAttrCtx collab (rtree ll.1 ll.2) value tagPfx) value initAttrState).2 then
        ⟨none,
          (attrLoop (mkAttrCtx collab (rtree ll.1 ll.2) value tagPfx) value
            initAttrState).1.calls⟩
      else
        ⟨some ((rtree ll.1 ll.2).country,
            (attrLoop (mkAttrCtx collab (rtree ll.1 ll.2) value tagPfx) value
              initAttrState).1.name_language),
          (attrLoop (mkAttrCtx collab (rtree ll.1 ll.2) value tagPfx) value
            initAttrState).1.calls⟩) := by
  unfold get_language_names
  rw [hlat, hlon]
  dsimp only
  rw [hll]
  dsimp only
  rw [if_neg (by simp [hc, hcl])]

/-- Without qualifying alternates the context records none and flags no
ambiguous text. -/
theorem mkAttrCtx_no_alt (collab : Collab) (g : GeoLookup) (value : List (String × String))
    (tagPfx : String)
    (hno : ∀ kv ∈ value, ¬(pyStartsWith kv.1 (tagPfx ++ ":") = true ∧
      normalize_osm_name_tag kv.1 true ∈ collab.languages)) :
    (mkAttrCtx collab g value tagPfx).has_alternate_names = false ∧
    (mkAttrCtx collab g value tagPfx).ambiguous_alternatives = [] := by
  have halts : collect_alternate_langs collab.languages value tagPfx = [] := by
    unfold collect_alternate_langs
    rw [List.filterMap_eq_nil_iff]
    intro kv hkv
    rw [if_neg (hno kv hkv)]
  constructor
  · simp [mkAttrCtx, halts]
  · simp [mkAttrCtx, halts, group_equivalent_alternatives]

/-- A key of the grouped-alternates map is a text value of some alternate. -/
theorem group_fold_keys (alts : List (String × String)) :
    ∀ (m : List (String × List String)) (e : String × List String),
      e ∈ alts.foldl (fun m2 lv => ddAppend m2 lv.2 lv.1) m →
      e.1 ∈ m.map Prod.fst ∨ ∃ lv ∈ alts, lv.2 = e.1 := by
  induction alts with
  | nil =>
    intro m e h
    exact Or.inl (List.mem_map_of_mem _ h)
  | cons lv rest ih =>
    intro m e h
    rw [List.foldl_cons] at h
    rcases ih _ e h with hk | ⟨lv2, hm2, hv2⟩
    · rcases ddAppend_keys_sub m lv.2 lv.1 e.1 hk with hk2 | hk2
      · exact Or.inl hk2
      · exact Or.inr ⟨lv, by simp, hk2.symm⟩
    · exact Or.inr ⟨lv2, List.mem_cons_of_mem _ hm2, hv2⟩

/-- An alternate pair originates in a qualifying tag of the entity. -/
theorem alternate_origin (languages : List String) (value : List (String × String))
    (tagPfx : String) (lv : String × String)
    (h : lv ∈ collect_alternate_langs languages value tagPfx) :
    ∃ kv ∈ value, pyStartsWith kv.1 (tagPfx ++ ":") = true ∧
      normalize_osm_name_tag kv.1 true ∈ languages ∧ kv.2 = lv.2 := by
  unfold collect_alternate_langs at h
  rw [List.mem_filterMap] at h
  obtain ⟨kv, hkv, hf⟩ := h
  split_ifs at hf with hcond
  all_goals cases hf
  exact ⟨kv, hkv, hcond.1, hcond.2, rfl⟩

/-- An ambiguous text occurs as the value of a qualifying alternate tag. -/
theorem ambiguous_has_occurrence (collab : Collab) (g : GeoLookup)
    (value : List (String × String)) (tagPfx v0 : String)
    (hamb : v0 ∈ (mkAttrCtx collab g value tagPfx).ambiguous_alternatives) :
    ∃ kv ∈ value, pyStartsWith kv.1 (tagPfx ++ ":") = true ∧
      normalize_osm_name_tag kv.1 true ∈ collab.languages ∧ kv.2 = v0 := by
  have hamb2 : v0 ∈ ((group_equivalent_alternatives
      (collect_alternate_langs collab.languages value tagPfx)).filter
        (fun e => 1 < e.2.length)).map Prod.fst := hamb
  rw [List.mem_map] at hamb2
  obtain ⟨e, he, hev⟩ := hamb2
  rw [List.mem_filter] at he
  have hkeys := group_fold_keys (collect_alternate_langs collab.languages value tagPfx)
    [] e he.1
  rcases hkeys with hk | ⟨lv, hlv, hv⟩
  · simp at hk
  · obtain ⟨kv, hkv, h1, h2, h3⟩ :=
      alternate_origin collab.languages value tagPfx lv hlv
    exact ⟨kv, hkv, h1, h2, by rw [h3, hv, hev]⟩

/-- An occurring qualifying alternate makes the context's flag true. -/
theorem mkAttrCtx_alt_true (collab : Collab) (g : GeoLookup)
    (value : List (String × String)) (tagPfx : String)
    (h : ∃ kv ∈ value, pyStartsWith kv.1 (tagPfx ++ ":") = true ∧
      normalize_osm_name_tag kv.1 true ∈ collab.languages) :
    (mkAttrCtx collab g value tagPfx).has_alternate_names = true := by
  obtain ⟨kv, hkv, h1, h2⟩ := h
  have hne : ¬collect_alternate_langs collab.languages value tagPfx = [] := by
    intro hnil
    rw [collect_alternate_langs, List.filterMap_eq_nil_iff] at hnil
    have h3 := hnil kv hkv
    rw [if_pos ⟨h1, h2⟩] at h3
    cases h3
  simp only [mkAttrCtx, decide_eq_true_eq]
  intro h4
  exact hne (List.length_eq_zero.mp h4)

/-- With no ambiguous alternates and a single candidate language, no step
aborts and no step invokes the disambiguation collaborator. -/
theorem attrStep_single_candidate (ctx : AttrCtx)
    (hA : ctx.ambiguous_alternatives = []) (hn1 : ctx.num_langs = 1)
    (st : AttrState) (k v : String) :
    (attrStep ctx st k v).2 = false ∧ (attrStep ctx st k v).1.calls = st.calls := by
  unfold attrStep
  dsimp only
  split_ifs <;>
    first
      | exact ⟨rfl, rfl⟩
      | (exfalso; simp_all)

/-- With a single candidate language, a bare-matching tag is attributed to
the head candidate by the step. -/
theorem attrStep_bare_single (ctx : AttrCtx) (hn1 : ctx.num_langs = 1)
    (k v : String) (hnp : pyStartsWith k (ctx.tagPfx ++ ":") = false)
    (halt : ctx.has_alternate_names = false) (hbare : bare_tag_guard ctx k = true)
    (st : AttrState) :
    v ∈ ddGet (attrStep ctx st k v).1.name_language (headLang ctx.candidate_languages) := by
  unfold attrStep
  rw [if_neg (by simp [hnp]), if_pos (by simp [halt, hbare]), if_pos hn1]
  dsimp only
  rw [ddGet_ddAppend_self]
  simp

/-- C2: the bare, unqualified tag is consulted only when the entity has no
qualifying alternates — with alternates present a key not starting with
`prefix:` leaves the loop state untouched — and with no alternates and
exactly one candidate language every bare-matching value is attributed to
that candidate directly, with no invocation of the disambiguation
collaborator at all. -/
theorem C2_bare_tag_fallback :
    (∀ (ctx : AttrCtx) (st : AttrState) (k v : String),
      ctx.has_alternate_names = true → pyStartsWith k (ctx.tagPfx ++ ":") = false →
      attrStep ctx st k v = (st, false)) ∧
    (∀ (collab : Collab) (rtree : LanguageRTree) (key : OsmKey)
        (value : List (String × String)) (tagPfx latS lonS : String) (ll : ℚ × ℚ),
      alGet value "lat" = some latS → alGet value "lon" = some lonS →
      latlon_to_floats latS lonS = some ll →
      ¬(rtree ll.1 ll.2).country = "" →
      (∀ kv ∈ value, ¬(pyStartsWith kv.1 (tagPfx ++ ":") = true ∧
        normalize_osm_name_tag kv.1 true ∈ collab.languages)) →
      (rtree ll.1 ll.2).candidate_languages.length = 1 →
      (get_language_names collab rtree key value tagPfx).calls = [] ∧
      ∃ m, (get_language_names collab rtree key value tagPfx).result =
          some ((rtree ll.1 ll.2).country, m) ∧
        ∀ kv ∈ value, pyStartsWith kv.1 (tagPfx ++ ":") = false →
          bare_tag_guard (mkAttrCtx collab (rtree ll.1 ll.2) value tagPfx) kv.1 = true →
          kv.2 ∈ ddGet m (headLang (rtree ll.1 ll.2).candidate_languages)) := by
  constructor
  · intro ctx st k v halt hnp
    unfold attrStep
    rw [if_neg (by simp [hnp]), if_neg (by simp [halt])]
  · intro collab rtree key value tagPfx latS lonS ll hlat hlon hll hc hno hone
    have hcl : ¬(rtree ll.1 ll.2).candidate_languages.isEmpty = true := by
      intro h
      rw [List.isEmpty_iff] at h
      rw [h] at hone
      cases hone
    obtain ⟨halt, hA⟩ := mkAttrCtx_no_alt collab (rtree ll.1 ll.2) value tagPfx hno
    have hn1 : (mkAttrCtx collab (rtree ll.1 ll.2) value tagPfx).num_langs = 1 := hone
    have hrun := get_language_names_run collab rtree key value tagPfx latS lonS ll
      hlat hlon hll hc hcl
    have hnoab : (attrLoop (mkAttrCtx collab (rtree ll.1 ll.2) value tagPfx) value
        initAttrState).2 = false :=
      attrLoop_no_abort_of_step _
        (fun st k v => (attrStep_single_candidate _ hA hn1 st k v).1) value initAttrState
    rw [hrun, if_neg (by simp [hnoab])]
    refine ⟨?_, ?_⟩
    · exact attrLoop_inv _ (fun st => st.calls = [])
        (fun st k v h => by
          show (attrStep _ st k v).1.calls = []
          rw [(attrStep_single_candidate _ hA hn1 st k v).2]
          exact h)
        value initAttrState rfl
    · refine ⟨_, rfl, ?_⟩
      intro kv hkv hnp hbare
      have hmem : (kv.1, kv.2) ∈ value := by simpa using hkv
      have hhead : headLang (rtree ll.1 ll.2).candidate_languages =
          headLang (mkAttrCtx collab (rtree ll.1 ll.2) value tagPfx).candidate_languages := rfl
      rw [hhead]
      exact attrLoop_estab _
        (fun st => kv.2 ∈ ddGet st.name_language
          (headLang (mkAttrCtx collab (rtree ll.1 ll.2) value tagPfx).candidate_languages))
        (fun st k v h => attrStep_mem_preserved _ _ _ st k v h)
        kv.1 kv.2
        (fun st => attrStep_bare_single _ hn1 kv.1 kv.2 hnp halt hbare st)
        (fun st k v => (attrStep_single_candidate _ hA hn1 st k v).1)
        value initAttrState hmem

/-- Parsed coordinates of the fixture point ("40.5", "3.5"), in the exact
shape produced by the embedded float parser. -/
def llW : ℚ × ℚ :=
  (1 * (((40 : ℕ) : ℚ) + ((5 : ℕ) : ℚ) / (10 : ℚ) ^ (1 : ℕ)),
    1 * (((3 : ℕ) : ℚ) + ((5 : ℕ) : ℚ) / (10 : ℚ) ^ (1 : ℕ)))

/-- Witness for C2: part 1 at a context with alternates and a bare key,
part 2 on the single-candidate fixture. -/
theorem C2_bare_tag_fallback_witness :
    ((mkAttrCtx collabC8 geoC8 entityC8 "addr:street").has_alternate_names = true ∧
      pyStartsWith "name" ((mkAttrCtx collabC8 geoC8 entityC8 "addr:street").tagPfx ++ ":") =
        false ∧
      attrStep (mkAttrCtx collabC8 geoC8 entityC8 "addr:street") initAttrState "name" "X" =
        (initAttrState, false)) ∧
    (alGet entityW "lat" = some "40.5" ∧ alGet entityW "lon" = some "3.5" ∧
      latlon_to_floats "40.5" "3.5" = some llW ∧
      ¬(constRtree geoW llW.1 llW.2).country = "" ∧
      (∀ kv ∈ entityW, ¬(pyStartsWith kv.1 ("name" ++ ":") = true ∧
        normalize_osm_name_tag kv.1 true ∈ collabW.languages)) ∧
      (constRtree geoW llW.1 llW.2).candidate_languages.length = 1 ∧
      ((get_language_names collabW (constRtree geoW) (OsmKey.plainId 1) entityW "name").calls =
          [] ∧
        ∃ m, (get_language_names collabW (constRtree geoW) (OsmKey.plainId 1)
              entityW "name").result =
            some ((constRtree geoW llW.1 llW.2).country, m) ∧
          ∀ kv ∈ entityW, pyStartsWith kv.1 ("name" ++ ":") = false →
            bare_tag_guard (mkAttrCtx collabW (constRtree geoW llW.1 llW.2) entityW "name")
              kv.1 = true →
            kv.2 ∈ ddGet m
              (headLang (constRtree geoW llW.1 llW.2).candidate_languages))) :=
  ⟨⟨by decide, by decide,
      C2_bare_tag_fallback.1 (mkAttrCtx collabC8 geoC8 entityC8 "addr:street")
        initAttrState "name" "X" (by decide) (by decide)⟩,
    rfl, rfl, rfl, by decide, by decide, by decide,
    C2_bare_tag_fallback.2 collabW (constRtree geoW) (OsmKey.plainId 1) entityW "name"
      "40.5" "3.5" llW rfl rfl rfl (by decide) (by decide) (by decide)⟩

/-- Step at a qualifying pair with ambiguous text: the text lands in the
seen set. -/
theorem attrStep_amb_seen (ctx : AttrCtx) (k v : String)
    (hp : pyStartsWith k (ctx.tagPfx ++ ":") = true)
    (hv : v ∈ ctx.ambiguous_alternatives) (st : AttrState) :
    v ∈ (attrStep ctx st k v).1.ambiguous_already_seen := by
  unfold attrStep
  rw [if_pos hp, if_neg (not_not_intro hv)]
  by_cases hseen : v ∈ st.ambiguous_already_seen
  · rw [if_neg (not_not_intro hseen)]
    exact hseen
  · rw [if_pos hseen]
    dsimp only
    split_ifs <;> simp

/-- With alternates present, each step either leaves the state unchanged,
only appends `v` to some bucket (a non-ambiguous alternate), or processes a
first-seen ambiguous text: logging the call, marking it seen and appending
the resolved language's bucket unless the collaborator answered with a
sentinel. -/
theorem attrStep_char (ctx : AttrCtx) (halt : ctx.has_alternate_names = true)
    (st : AttrState) (k v : String) :
    attrStep ctx st k v = (st, false) ∨
    (∃ L, attrStep ctx st k v =
        ({ st with name_language := ddAppend st.name_language L v }, false) ∧
      ¬v ∈ ctx.ambiguous_alternatives) ∨
    (v ∈ ctx.ambiguous_alternatives ∧ ¬v ∈ st.ambiguous_already_seen ∧
      ((¬ctx.disambiguate v (amb_candidate_pairs ctx v) = AMBIGUOUS_LANGUAGE ∧
        ¬ctx.disambiguate v (amb_candidate_pairs ctx v) = UNKNOWN_LANGUAGE ∧
        attrStep ctx st k v =
          ({ st with
              name_language := ddAppend st.name_language
                (ctx.disambiguate v (amb_candidate_pairs ctx v)) v,
              ambiguous_already_seen := st.ambiguous_already_seen ++ [v],
              calls := st.calls ++ [(v, amb_candidate_pairs ctx v)] }, false)) ∨
      ((ctx.disambiguate v (amb_candidate_pairs ctx v) = AMBIGUOUS_LANGUAGE ∨
        ctx.disambiguate v (amb_candidate_pairs ctx v) = UNKNOWN_LANGUAGE) ∧
        attrStep ctx st k v =
          ({ st with
              ambiguous_already_seen := st.ambiguous_already_seen ++ [v],
              calls := st.calls ++ [(v, amb_candidate_pairs ctx v)] }, false)))) := by
  unfold attrStep
  dsimp only
  split_ifs with h1 h2 h3 h4 h5 <;>
    first
      | exact Or.inl rfl
      | (exact Or.inr (Or.inl ⟨_, rfl, h2⟩))
      | (exact Or.inr (Or.inr ⟨h2, h3, Or.inl ⟨h4.1, h4.2, rfl⟩⟩))
      | (refine Or.inr (Or.inr ⟨h2, h3, Or.inr ⟨?_, rfl⟩⟩); tauto)
      | simp_all

/-- Non-membership in a list extended by one different element. -/
theorem not_mem_append_singleton {x y : String} {l : List String}
    (h1 : ¬x ∈ l) (h2 : ¬x = y) : ¬x ∈ l ++ [y] := by
  intro h
  rcases List.mem_append.mp h with h3 | h3
  · exact h1 h3
  · exact h2 (List.mem_singleton.mp h3)

/-- Seen-set membership survives any step. -/
theorem attrStep_seen_mem_preserved (ctx : AttrCtx) (x : String) (st : AttrState)
    (k v : String) (h : x ∈ st.ambiguous_already_seen) :
    x ∈ (attrStep ctx st k v).1.ambiguous_already_seen := by
  obtain ⟨t, ht⟩ := attrStep_seen_extends ctx st k v
  rw [ht]
  exact List.mem_append_left _ h

/-- Step preservation of the call-log bookkeeping for one ambiguous text:
exactly one logged call carries that text once it is seen, none before. -/
theorem attrStep_call_filter_inv (ctx : AttrCtx) (v0 : String)
    (halt : ctx.has_alternate_names = true) (st : AttrState) (k v : String)
    (hP : st.calls.filter (fun c => c.1 = v0) =
      if v0 ∈ st.ambiguous_already_seen then [(v0, amb_candidate_pairs ctx v0)] else []) :
    (attrStep ctx st k v).1.calls.filter (fun c => c.1 = v0) =
      if v0 ∈ (attrStep ctx st k v).1.ambiguous_already_seen then
        [(v0, amb_candidate_pairs ctx v0)] else [] := by
  rcases attrStep_char ctx halt st k v with hc | ⟨L, hc, hnamb⟩ | ⟨hvamb, hseen, hcase⟩
  · rw [hc]
    exact hP
  · rw [hc]
    exact hP
  · have hgoal : (st.calls ++ [(v, amb_candidate_pairs ctx v)]).filter (fun c => c.1 = v0) =
        if v0 ∈ st.ambiguous_already_seen ++ [v] then
          [(v0, amb_candidate_pairs ctx v0)] else [] := by
      rw [List.filter_append]
      by_cases hvv : v = v0
      · subst hvv
        rw [if_neg hseen] at hP
        rw [hP, if_pos (by simp)]
        simp
      · rw [show List.filter (fun c => decide (c.1 = v0)) [(v, amb_candidate_pairs ctx v)]
            = [] from by simp [hvv], List.append_nil, hP]
        by_cases hs : v0 ∈ st.ambiguous_already_seen
        · rw [if_pos hs, if_pos (by simp [hs])]
        · rw [if_neg hs, if_neg (not_mem_append_singleton hs (fun h => hvv h.symm))]
    rcases hcase with ⟨hA, hU, hc⟩ | ⟨hsent, hc⟩ <;> rw [hc] <;> exact hgoal

/-- Step preservation of total absence of an ambiguous text from the map,
when the collaborator answers a sentinel on it. -/
theorem attrStep_amb_absent_inv (ctx : AttrCtx) (v0 : String)
    (halt : ctx.has_alternate_names = true)
    (hv0 : v0 ∈ ctx.ambiguous_alternatives)
    (hsent : ctx.disambiguate v0 (amb_candidate_pairs ctx v0) = AMBIGUOUS_LANGUAGE ∨
      ctx.disambiguate v0 (amb_candidate_pairs ctx v0) = UNKNOWN_LANGUAGE)
    (st : AttrState) (k v : String)
    (hP : ∀ e ∈ st.name_language, ¬v0 ∈ e.2) :
    ∀ e ∈ (attrStep ctx st k v).1.name_language, ¬v0 ∈ e.2 := by
  rcases attrStep_char ctx halt st k v with hc | ⟨L, hc, hnamb⟩ | ⟨hvamb, hseen, hcase⟩
  · rw [hc]
    exact hP
  · rw [hc]
    exact ddAppend_not_mem_vals L v hP
      (fun hvv => hnamb (by rw [hvv]; exact hv0))
  · rcases hcase with ⟨hA, hU, hc⟩ | ⟨hsent2, hc⟩ <;> rw [hc]
    · refine ddAppend_not_mem_vals _ v hP ?_
      intro hvv
      subst hvv
      rcases hsent with h | h
      · exact hA h
      · exact hU h
    · exact hP

/-- Step preservation of the occurrence bound for an ambiguous text: at
most one copy of it sits in the map, and none before it is seen. -/
theorem attrStep_amb_count_inv (ctx : AttrCtx) (v0 : String)
    (halt : ctx.has_alternate_names = true)
    (hv0 : v0 ∈ ctx.ambiguous_alternatives)
    (st : AttrState) (k v : String)
    (hP : (st.name_language.flatMap (fun e => e.2)).count v0 ≤
      (if v0 ∈ st.ambiguous_already_seen then 1 else 0)) :
    ((attrStep ctx st k v).1.name_language.flatMap (fun e => e.2)).count v0 ≤
      (if v0 ∈ (attrStep ctx st k v).1.ambiguous_already_seen then 1 else 0) := by
  rcases attrStep_char ctx halt st k v with hc | ⟨L, hc, hnamb⟩ | ⟨hvamb, hseen, hcase⟩
  · rw [hc]
    exact hP
  · rw [hc]
    dsimp only
    rw [ddAppend_count, if_neg (fun hvv => hnamb (by rw [hvv]; exact hv0))]
    simpa using hP
  · rcases hcase with ⟨hA, hU, hc⟩ | ⟨hsent2, hc⟩ <;> rw [hc] <;> dsimp only
    · rw [ddAppend_count]
      by_cases hvv : v = v0
      · subst hvv
        rw [if_neg hseen] at hP
        rw [if_pos rfl, if_pos (by simp)]
        omega
      · rw [if_neg hvv]
        by_cases hs : v0 ∈ st.ambiguous_already_seen
        · rw [if_pos hs] at hP
          rw [if_pos (by simp [hs])]
          omega
        · rw [if_neg hs] at hP
          rw [if_neg (not_mem_append_singleton hs (fun h => hvv h.symm))]
          omega
    · by_cases hs : v0 ∈ st.ambiguous_already_seen
      · rw [if_pos hs] at hP
        rw [if_pos (by simp [hs])]
        exact hP
      · rw [if_neg hs] at hP
        by_cases hvv : v = v0
        · rw [if_pos (by simp [hvv])]
          omega
        · rw [if_neg (not_mem_append_singleton hs (fun h => hvv h.symm))]
          exact hP

/-- C1: a text shared verbatim by several alternate language-qualified tags
is never attributed through the direct key mapping: the engine invokes the
disambiguation collaborator exactly once for that text, with the
`(lang, is_default)` pairs of the languages sharing it; if the collaborator
answers ambiguous or unknown the text is attributed to no language at all;
and in every case at most one copy of the text ends up in the returned
map. -/
theorem C1_ambiguous_alternates (collab : Collab) (rtree : LanguageRTree) (key : OsmKey)
    (value : List (String × String)) (tagPfx latS lonS : String) (ll : ℚ × ℚ) (v0 : String)
    (hlat : alGet value "lat" = some latS) (hlon : alGet value "lon" = some lonS)
    (hll : latlon_to_floats latS lonS = some ll)
    (hc : ¬(rtree ll.1 ll.2).country = "")
    (hcl : ¬(rtree ll.1 ll.2).candidate_languages.isEmpty = true)
    (hamb : v0 ∈ (mkAttrCtx collab (rtree ll.1 ll.2) value tagPfx).ambiguous_alternatives) :
    (get_language_names collab rtree key value tagPfx).calls.filter (fun c => c.1 = v0) =
      [(v0, amb_candidate_pairs (mkAttrCtx collab (rtree ll.1 ll.2) value tagPfx) v0)] ∧
    ((collab.disambiguate_language v0
        (amb_candidate_pairs (mkAttrCtx collab (rtree ll.1 ll.2) value tagPfx) v0) =
          AMBIGUOUS_LANGUAGE ∨
      collab.disambiguate_language v0
        (amb_candidate_pairs (mkAttrCtx collab (rtree ll.1 ll.2) value tagPfx) v0) =
          UNKNOWN_LANGUAGE) →
      ∀ c m, (get_language_names collab rtree key value tagPfx).result = some (c, m) →
        ∀ e ∈ m, ¬v0 ∈ e.2) ∧
    (∀ c m, (get_language_names collab rtree key value tagPfx).result = some (c, m) →
      (m.flatMap (fun e => e.2)).count v0 ≤ 1) := by
  obtain ⟨kv, hkv, hks, hkn, hkv2⟩ :=
    ambiguous_has_occurrence collab (rtree ll.1 ll.2) value tagPfx v0 hamb
  have halt : (mkAttrCtx collab (rtree ll.1 ll.2) value tagPfx).has_alternate_names = true :=
    mkAttrCtx_alt_true collab (rtree ll.1 ll.2) value tagPfx ⟨kv, hkv, hks, hkn⟩
  have hnoab : (attrLoop (mkAttrCtx collab (rtree ll.1 ll.2) value tagPfx) value
      initAttrState).2 = false :=
    attrLoop_no_abort _ halt value initAttrState
  have hmem : (kv.1, v0) ∈ value := by
    rw [← hkv2]
    simpa using hkv
  have hfseen : v0 ∈ (attrLoop (mkAttrCtx collab (rtree ll.1 ll.2) value tagPfx) value
      initAttrState).1.ambiguous_already_seen :=
    attrLoop_estab _ (fun st => v0 ∈ st.ambiguous_already_seen)
      (fun st k v h => attrStep_seen_mem_preserved _ v0 st k v h)
      kv.1 v0
      (fun st => attrStep_amb_seen _ kv.1 v0 hks hamb st)
      (fun st k v => attrStep_no_abort _ halt st k v)
      value initAttrState hmem
  have hfilter : (attrLoop (mkAttrCtx collab (rtree ll.1 ll.2) value tagPfx) value
      initAttrState).1.calls.filter (fun c => c.1 = v0) =
      if v0 ∈ (attrLoop (mkAttrCtx collab (rtree ll.1 ll.2) value tagPfx) value
        initAttrState).1.ambiguous_already_seen then
        [(v0, amb_candidate_pairs (mkAttrCtx collab (rtree ll.1 ll.2) value tagPfx) v0)]
      else [] := by
    have hbase : (initAttrState.calls.filter (fun c => c.1 = v0)) =
        if v0 ∈ initAttrState.ambiguous_already_seen then
          [(v0, amb_candidate_pairs (mkAttrCtx collab (rtree ll.1 ll.2) value tagPfx) v0)]
        else [] := by
      simp [initAttrState]
    exact attrLoop_inv _
      (fun st => st.calls.filter (fun c => c.1 = v0) =
        if v0 ∈ st.ambiguous_already_seen then
          [(v0, amb_candidate_pairs (mkAttrCtx collab (rtree ll.1 ll.2) value tagPfx) v0)]
        else [])
      (fun st k v h => attrStep_call_filter_inv _ v0 halt st k v h)
      value initAttrState hbase
  rw [get_language_names_run collab rtree key value tagPfx latS lonS ll hlat hlon hll hc hcl,
    if_neg (by simp [hnoab])]
  refine ⟨?_, ?_, ?_⟩
  · rw [hfilter, if_pos hfseen]
  · intro hsent c m hres
    have hm : m = (attrLoop (mkAttrCtx collab (rtree ll.1 ll.2) value tagPfx) value
        initAttrState).1.name_language := by
      cases hres
      rfl
    rw [hm]
    exact attrLoop_inv _
      (fun st => ∀ e ∈ st.name_language, ¬v0 ∈ e.2)
      (fun st k v h => attrStep_amb_absent_inv _ v0 halt hamb hsent st k v h)
      value initAttrState (by simp [initAttrState])
  · intro c m hres
    have hm : m = (attrLoop (mkAttrCtx collab (rtree ll.1 ll.2) value tagPfx) value
        initAttrState).1.name_language := by
      cases hres
      rfl
    have hcount := attrLoop_inv _
      (fun st => (st.name_language.flatMap (fun e => e.2)).count v0 ≤
        (if v0 ∈ st.ambiguous_already_seen then 1 else 0))
      (fun st k v h => attrStep_amb_count_inv _ v0 halt hamb st k v h)
      value initAttrState (by simp [initAttrState])
    rw [hm]
    refine le_trans hcount ?_
    split_ifs
    all_goals omega

/-- Fixture for the ambiguity guard: two alternate tags share one text and
the classifier answers "ambiguous". -/
def collabC1 : Collab :=
  { languages := ["en", "fr"]
    disambiguate_language := fun _ _ => AMBIGUOUS_LANGUAGE
    well_represented := []
    wrlc := fun _ => []
    official_languages := fun _ => []
    format_address := fun _ _ _ => none
    tsv_string := fun s => s }

/-- Country xx, candidates fr (default) and en. -/
def geoC1 : GeoLookup := ⟨"xx", [⟨"fr", true⟩, ⟨"en", false⟩], []⟩

/-- An entity whose en and fr names carry identical text. -/
def entityC1 : List (String × String) :=
  [("lat", "40.5"), ("lon", "3.5"), ("name:en", "Rue X"), ("name:fr", "Rue X")]

/-- Witness for C1 on the shared-text fixture. -/
theorem C1_ambiguous_alternates_witness :
    (alGet entityC1 "lat" = some "40.5" ∧ alGet entityC1 "lon" = some "3.5" ∧
      latlon_to_floats "40.5" "3.5" = some llW ∧
      ¬(constRtree geoC1 llW.1 llW.2).country = "" ∧
      ¬(constRtree geoC1 llW.1 llW.2).candidate_languages.isEmpty = true ∧
      "Rue X" ∈ (mkAttrCtx collabC1 (constRtree geoC1 llW.1 llW.2) entityC1
        "name").ambiguous_alternatives) ∧
    ((get_language_names collabC1 (constRtree geoC1) (OsmKey.plainId 1) entityC1
        "name").calls.filter (fun c => c.1 = "Rue X") =
      [("Rue X", amb_candidate_pairs
        (mkAttrCtx collabC1 (constRtree geoC1 llW.1 llW.2) entityC1 "name") "Rue X")] ∧
    ((collabC1.disambiguate_language "Rue X"
        (amb_candidate_pairs (mkAttrCtx collabC1 (constRtree geoC1 llW.1 llW.2) entityC1
          "name") "Rue X") = AMBIGUOUS_LANGUAGE ∨
      collabC1.disambiguate_language "Rue X"
        (amb_candidate_pairs (mkAttrCtx collabC1 (constRtree geoC1 llW.1 llW.2) entityC1
          "name") "Rue X") = UNKNOWN_LANGUAGE) →
      ∀ c m, (get_language_names collabC1 (constRtree geoC1) (OsmKey.plainId 1) entityC1
          "name").result = some (c, m) →
        ∀ e ∈ m, ¬"Rue X" ∈ e.2) ∧
    (∀ c m, (get_language_names collabC1 (constRtree geoC1) (OsmKey.plainId 1) entityC1
        "name").result = some (c, m) →
      (m.flatMap (fun e => e.2)).count "Rue X" ≤ 1)) :=
  ⟨⟨rfl, rfl, rfl, by decide, by decide, by decide⟩,
    C1_ambiguous_alternates collabC1 (constRtree geoC1) (OsmKey.plainId 1) entityC1
      "name" "40.5" "3.5" llW "Rue X" rfl rfl rfl (by decide) (by decide) (by decide)⟩

/-- Bare-branch aborts: with no alternates and several candidates, the step
on a bare-matching tag executes `return None, None` when the collaborator
answers "ambiguous", when it answers a concrete language caught by the
well-represented guard, or when it answers "unknown" while the defaults are
not exactly one. -/
theorem attrStep_bare_abort (ctx : AttrCtx) (k v : String)
    (hnp : pyStartsWith k (ctx.tagPfx ++ ":") = false)
    (halt : ctx.has_alternate_names = false)
    (hbare : bare_tag_guard ctx k = true)
    (hn1 : ¬ctx.num_langs = 1)
    (habort : ctx.disambiguate v (bare_candidate_pairs ctx) = AMBIGUOUS_LANGUAGE ∨
      (¬ctx.disambiguate v (bare_candidate_pairs ctx) = AMBIGUOUS_LANGUAGE ∧
        ¬ctx.disambiguate v (bare_candidate_pairs ctx) = UNKNOWN_LANGUAGE ∧
        ¬ctx.disambiguate v (bare_candidate_pairs ctx) = headLang ctx.candidate_languages ∧
        ctx.disambiguate v (bare_candidate_pairs ctx) ∈ ctx.country_langs ∧
        1 < ctx.country_defaults ∧ 0 < ctx.regional_defaults ∧
        ctx.disambiguate v (bare_candidate_pairs ctx) ∈ ctx.well_represented) ∨
      (ctx.disambiguate v (bare_candidate_pairs ctx) = UNKNOWN_LANGUAGE ∧
        ¬ctx.num_defaults = 1)) :
    ∀ st : AttrState, (attrStep ctx st k v).2 = true := by
  intro st
  unfold attrStep
  rw [if_neg (by simp [hnp]), if_pos (by exact ⟨by simp [halt], hbare⟩), if_neg hn1]
  dsimp only
  rcases habort with hA | ⟨hA, hU, hg1, hg2, hg3, hg4, hg5⟩ | ⟨hU, hnd⟩
  · rw [if_pos hA]
  · rw [if_neg hA, if_neg (fun hh => hU hh.1), if_pos hU, if_pos ⟨hg1, hg2, hg3, hg4, hg5⟩]
  · rw [if_neg (by rw [hU]; decide), if_neg (fun hh => hnd hh.2),
      if_neg (not_not_intro hU)]

/-- C4 (amended): in the bare-tag fallback, when the collaborator resolves
a concrete language that differs from the head candidate, is declared by a
country-level (admin_level 0) polygon, is well represented, while the
country-level polygons declare more than one default and some regional
polygon declares a default, the engine returns `None` for the whole
entity.  The country-level-declaration condition is the amendment: without
it the source attributes the language instead of aborting. -/
theorem C4_amended_well_represented_guard (collab : Collab) (rtree : LanguageRTree)
    (key : OsmKey) (value : List (String × String)) (tagPfx latS lonS : String)
    (ll : ℚ × ℚ) (k0 v0 L : String)
    (hlat : alGet value "lat" = some latS) (hlon : alGet value "lon" = some lonS)
    (hll : latlon_to_floats latS lonS = some ll)
    (hc : ¬(rtree ll.1 ll.2).country = "")
    (hcl : ¬(rtree ll.1 ll.2).candidate_languages.isEmpty = true)
    (hno : ∀ kv ∈ value, ¬(pyStartsWith kv.1 (tagPfx ++ ":") = true ∧
      normalize_osm_name_tag kv.1 true ∈ collab.languages))
    (hk : (k0, v0) ∈ value)
    (hnp : pyStartsWith k0 (tagPfx ++ ":") = false)
    (hbare : bare_tag_guard (mkAttrCtx collab (rtree ll.1 ll.2) value tagPfx) k0 = true)
    (hn1 : ¬(rtree ll.1 ll.2).candidate_languages.length = 1)
    (hd : collab.disambiguate_language v0
      (bare_candidate_pairs (mkAttrCtx collab (rtree ll.1 ll.2) value tagPfx)) = L)
    (hLa : ¬L = AMBIGUOUS_LANGUAGE) (hLu : ¬L = UNKNOWN_LANGUAGE)
    (hne : ¬L = headLang (rtree ll.1 ll.2).candidate_languages)
    (hcountry : L ∈ (mkAttrCtx collab (rtree ll.1 ll.2) value tagPfx).country_langs)
    (hcd : 1 < (mkAttrCtx collab (rtree ll.1 ll.2) value tagPfx).country_defaults)
    (hrd : 0 < (mkAttrCtx collab (rtree ll.1 ll.2) value tagPfx).regional_defaults)
    (hwrl : L ∈ collab.well_represented) :
    (get_language_names collab rtree key value tagPfx).result = none := by
  have habort := attrStep_bare_abort (mkAttrCtx collab (rtree ll.1 ll.2) value tagPfx)
    k0 v0 hnp (mkAttrCtx_no_alt collab (rtree ll.1 ll.2) value tagPfx hno).1 hbare hn1
    (Or.inr (Or.inl (by
      rw [show (mkAttrCtx collab (rtree ll.1 ll.2) value tagPfx).disambiguate =
        collab.disambiguate_language from rfl, hd]
      exact ⟨hLa, hLu, hne, hcountry, hcd, hrd, hwrl⟩)))
  have hab := attrLoop_abort_of_mem (mkAttrCtx collab (rtree ll.1 ll.2) value tagPfx)
    k0 v0 habort value initAttrState hk
  rw [get_language_names_run collab rtree key value tagPfx latS lonS ll hlat hlon hll hc hcl,
    if_pos (by simp [hab])]

/-- Country xx where the country polygon declares both fr and en as
defaults and a regional polygon declares a default. -/
def geoC4b : GeoLookup :=
  ⟨"xx", [⟨"fr", true⟩, ⟨"en", false⟩],
    [⟨0, [⟨"fr", true⟩, ⟨"en", true⟩]⟩, ⟨2, [⟨"oc", true⟩]⟩]⟩

/-- Witness for C4 (amended): on this fixture all five guard conditions
hold and the engine indeed drops the entity. -/
theorem C4_amended_well_represented_guard_witness :
    (alGet entityC4 "lat" = some "40.5" ∧ alGet entityC4 "lon" = some "3.5" ∧
      latlon_to_floats "40.5" "3.5" = some llW ∧
      ¬(constRtree geoC4b llW.1 llW.2).country = "" ∧
      ¬(constRtree geoC4b llW.1 llW.2).candidate_languages.isEmpty = true ∧
      (∀ kv ∈ entityC4, ¬(pyStartsWith kv.1 ("name" ++ ":") = true ∧
        normalize_osm_name_tag kv.1 true ∈ collabC4.languages)) ∧
      ("name", "Main St") ∈ entityC4 ∧
      pyStartsWith "name" ("name" ++ ":") = false ∧
      bare_tag_guard (mkAttrCtx collabC4 (constRtree geoC4b llW.1 llW.2) entityC4 "name")
        "name" = true ∧
      ¬(constRtree geoC4b llW.1 llW.2).candidate_languages.length = 1 ∧
      collabC4.disambiguate_language "Main St"
        (bare_candidate_pairs (mkAttrCtx collabC4 (constRtree geoC4b llW.1 llW.2)
          entityC4 "name")) = "en" ∧
      ¬"en" = AMBIGUOUS_LANGUAGE ∧ ¬"en" = UNKNOWN_LANGUAGE ∧
      ¬"en" = headLang (constRtree geoC4b llW.1 llW.2).candidate_languages ∧
      "en" ∈ (mkAttrCtx collabC4 (constRtree geoC4b llW.1 llW.2) entityC4
        "name").country_langs ∧
      1 < (mkAttrCtx collabC4 (constRtree geoC4b llW.1 llW.2) entityC4
        "name").country_defaults ∧
      0 < (mkAttrCtx collabC4 (constRtree geoC4b llW.1 llW.2) entityC4
        "name").regional_defaults ∧
      "en" ∈ collabC4.well_represented) ∧
    (get_language_names collabC4 (constRtree geoC4b) (OsmKey.plainId 1) entityC4
      "name").result = none :=
  ⟨⟨rfl, rfl, rfl, by decide, by decide, by decide, by decide, by decide, by decide,
      by decide, rfl, by decide, by decide, by decide, by decide, by decide, by decide,
      by decide⟩,
    C4_amended_well_represented_guard collabC4 (constRtree geoC4b) (OsmKey.plainId 1)
      entityC4 "name" "40.5" "3.5" llW "name" "Main St" "en" rfl rfl rfl (by decide)
      (by decide) (by decide) (by decide) (by decide) (by decide) (by decide) rfl
      (by decide) (by decide) (by decide) (by decide) (by decide) (by decide) (by decide)⟩

/-- C3 (amended): when the disambiguation collaborator answers "ambiguous"
on a bare tag, the engine returns `None` for the whole entity, and every
builder that obtains languages through the engine contributes no row for an
entity on which the engine returned `None`; the tagged formatted-address
builder is the exception, as it calls the collaborator directly and writes
its answer — including the ambiguous/unknown sentinel — as the row's
language. -/
theorem C3_amended_disambiguation_abort :
    (∀ (collab : Collab) (rtree : LanguageRTree) (key : OsmKey)
        (value : List (String × String)) (tagPfx latS lonS : String) (ll : ℚ × ℚ)
        (k0 v0 : String),
      alGet value "lat" = some latS → alGet value "lon" = some lonS →
      latlon_to_floats latS lonS = some ll →
      ¬(rtree ll.1 ll.2).country = "" →
      ¬(rtree ll.1 ll.2).candidate_languages.isEmpty = true →
      (∀ kv ∈ value, ¬(pyStartsWith kv.1 (tagPfx ++ ":") = true ∧
        normalize_osm_name_tag kv.1 true ∈ collab.languages)) →
      (k0, v0) ∈ value →
      pyStartsWith k0 (tagPfx ++ ":") = false →
      bare_tag_guard (mkAttrCtx collab (rtree ll.1 ll.2) value tagPfx) k0 = true →
      ¬(rtree ll.1 ll.2).candidate_languages.length = 1 →
      collab.disambiguate_language v0
        (bare_candidate_pairs (mkAttrCtx collab (rtree ll.1 ll.2) value tagPfx)) =
          AMBIGUOUS_LANGUAGE →
      (get_language_names collab rtree key value tagPfx).result = none) ∧
    (∀ (collab : Collab) (rtree : LanguageRTree) (key : OsmKey)
        (value : List (String × String)),
      (get_language_names collab rtree key value "name").result = none →
      ways_entity collab rtree key value = [] ∧ venue_entity collab rtree key value = []) ∧
    (∀ (collab : Collab) (rtree : LanguageRTree) (key : OsmKey)
        (value : List (String × String)),
      (get_language_names collab rtree key value "addr:street").result = none →
      address_entity collab rtree key value = []) ∧
    (∀ (collab : Collab) (rtree : LanguageRTree) (key : OsmKey)
        (value : List (String × String)),
      (get_language_names collab rtree key
        ((NAME_KEYS ++ COUNTRY_KEYS ++ POSTAL_KEYS ++ OSM_IGNORE_KEYS).foldl alPop value)
        "addr:street").result = none →
      limited_entity collab rtree key value = ⟨[], []⟩) := by
  refine ⟨?_, ?_, ?_, ?_⟩
  · intro collab rtree key value tagPfx latS lonS ll k0 v0 hlat hlon hll hc hcl hno hk
      hnp hbare hn1 hd
    have habort := attrStep_bare_abort (mkAttrCtx collab (rtree ll.1 ll.2) value tagPfx)
      k0 v0 hnp (mkAttrCtx_no_alt collab (rtree ll.1 ll.2) value tagPfx hno).1 hbare hn1
      (Or.inl (by
        rw [show (mkAttrCtx collab (rtree ll.1 ll.2) value tagPfx).disambiguate =
          collab.disambiguate_language from rfl, hd]))
    have hab := attrLoop_abort_of_mem (mkAttrCtx collab (rtree ll.1 ll.2) value tagPfx)
      k0 v0 habort value initAttrState hk
    rw [get_language_names_run collab rtree key value tagPfx latS lonS ll hlat hlon hll
      hc hcl, if_pos (by simp [hab])]
  · intro collab rtree key value hres
    constructor
    · unfold ways_entity
      rw [hres]
    · unfold venue_entity
      rw [hres]
  · intro collab rtree key value hres
    unfold address_entity
    rw [hres]
  · intro collab rtree key value hres
    unfold limited_entity
    rcases h1 : alGet value "lat" with _ | latS <;> rcases h2 : alGet value "lon" with _ | lonS
    · rfl
    · rfl
    · rfl
    · dsimp only
      rcases h3 : latlon_to_floats latS lonS with _ | ll
      · rfl
      · dsimp only
        split_ifs with h4
        · rfl
        · rw [hres]

/-- A bare-name entity for the disambiguation-abort witness. -/
def entityC3b : List (String × String) :=
  [("lat", "40.5"), ("lon", "3.5"), ("name", "Rue Foo")]

/-- Witness for C3 (amended): the engine aborts on the ambiguous bare tag,
and each engine-driven builder emits nothing for an entity on which the
engine returned `None`. -/
theorem C3_amended_disambiguation_abort_witness :
    ((alGet entityC3b "lat" = some "40.5" ∧ alGet entityC3b "lon" = some "3.5" ∧
      latlon_to_floats "40.5" "3.5" = some llW ∧
      ¬(constRtree geoC3 llW.1 llW.2).country = "" ∧
      ¬(constRtree geoC3 llW.1 llW.2).candidate_languages.isEmpty = true ∧
      (∀ kv ∈ entityC3b, ¬(pyStartsWith kv.1 ("name" ++ ":") = true ∧
        normalize_osm_name_tag kv.1 true ∈ collabC3.languages)) ∧
      ("name", "Rue Foo") ∈ entityC3b ∧
      pyStartsWith "name" ("name" ++ ":") = false ∧
      bare_tag_guard (mkAttrCtx collabC3 (constRtree geoC3 llW.1 llW.2) entityC3b "name")
        "name" = true ∧
      ¬(constRtree geoC3 llW.1 llW.2).candidate_languages.length = 1 ∧
      collabC3.disambiguate_language "Rue Foo"
        (bare_candidate_pairs (mkAttrCtx collabC3 (constRtree geoC3 llW.1 llW.2)
          entityC3b "name")) = AMBIGUOUS_LANGUAGE) ∧
      (get_language_names collabC3 (constRtree geoC3) (OsmKey.plainId 1) entityC3b
        "name").result = none) ∧
    ((get_language_names collabC3 (constRtree geoC3) (OsmKey.plainId 1) entityC3b
        "name").result = none ∧
      ways_entity collabC3 (constRtree geoC3) (OsmKey.plainId 1) entityC3b = [] ∧
      venue_entity collabC3 (constRtree geoC3) (OsmKey.plainId 1) entityC3b = []) ∧
    ((get_language_names collabC3 (constRtree geoC3) (OsmKey.plainId 1) entityC3
        "addr:street").result = none ∧
      address_entity collabC3 (constRtree geoC3) (OsmKey.plainId 1) entityC3 = []) ∧
    ((get_language_names collabC3 (constRtree geoC3) (OsmKey.plainId 1)
        ((NAME_KEYS ++ COUNTRY_KEYS ++ POSTAL_KEYS ++ OSM_IGNORE_KEYS).foldl alPop entityC3)
        "addr:street").result = none ∧
      limited_entity collabC3 (constRtree geoC3) (OsmKey.plainId 1) entityC3 = ⟨[], []⟩) :=
  ⟨⟨⟨rfl, rfl, rfl, by decide, by decide, by decide, by decide, by decide, by decide,
      by decide, by decide⟩,
    C3_amended_disambiguation_abort.1 collabC3 (constRtree geoC3) (OsmKey.plainId 1)
      entityC3b "name" "40.5" "3.5" llW "name" "Rue Foo" rfl rfl rfl (by decide)
      (by decide) (by decide) (by decide) (by decide) (by decide) (by decide) (by decide)⟩,
    ⟨by decide,
      C3_amended_disambiguation_abort.2.1 collabC3 (constRtree geoC3) (OsmKey.plainId 1)
        entityC3b (by decide)⟩,
    ⟨by decide,
      C3_amended_disambiguation_abort.2.2.1 collabC3 (constRtree geoC3) (OsmKey.plainId 1)
        entityC3 (by decide)⟩,
    ⟨by decide,
      C3_amended_disambiguation_abort.2.2.2 collabC3 (constRtree geoC3) (OsmKey.plainId 1)
        entityC3 (by decide)⟩⟩

/-- The head candidate's language is one of the candidate languages. -/
theorem headLang_mem {cands : List CandidateLanguage} (h : ¬cands = []) :
    headLang cands ∈ cands.map (fun l => l.lang) := by
  cases cands with
  | nil => exact absurd rfl h
  | cons c rest => simp [headLang]

/-- Script-stripping the raw suffix gives the script-normalized suffix. -/
theorem strip_script_normalize (k : String) :
    strip_script_qualifier (normalize_osm_name_tag k false) = normalize_osm_name_tag k true := rfl

/-- Step preservation of key provenance: every key of the map is a known
code, has a known script-stripped form, is a candidate language, or is a
recorded answer of the disambiguation collaborator. -/
theorem attrStep_keys_inv (ctx : AttrCtx) (hcl : ¬ctx.candidate_languages = [])
    (st : AttrState) (k v : String)
    (hP : ∀ K ∈ st.name_language.map Prod.fst,
      K ∈ ctx.languages ∨ strip_script_qualifier K ∈ ctx.languages ∨
      K ∈ ctx.candidate_languages.map (fun l => l.lang) ∨
      ∃ c ∈ st.calls, K = ctx.disambiguate c.1 c.2) :
    ∀ K ∈ (attrStep ctx st k v).1.name_language.map Prod.fst,
      K ∈ ctx.languages ∨ strip_script_qualifier K ∈ ctx.languages ∨
      K ∈ ctx.candidate_languages.map (fun l => l.lang) ∨
      ∃ c ∈ (attrStep ctx st k v).1.calls, K = ctx.disambiguate c.1 c.2 := by
  unfold attrStep
  dsimp only
  split_ifs <;> intro K hK <;> (try dsimp only at hK ⊢) <;>
    first
      | (have hsplit : K ∈ st.name_language.map Prod.fst := hK
         rcases hP K hsplit with h | h | h | h
         · exact Or.inl h
         · exact Or.inr (Or.inl h)
         · exact Or.inr (Or.inr (Or.inl h))
         · obtain ⟨c, hc1, hc2⟩ := h
           exact Or.inr (Or.inr (Or.inr ⟨c, by simp [hc1], hc2⟩)))
      | (have hsplit := ddAppend_keys_sub _ _ _ K hK
         rcases hsplit with hold | hnew
         · rcases hP K hold with h | h | h | h
           · exact Or.inl h
           · exact Or.inr (Or.inl h)
           · exact Or.inr (Or.inr (Or.inl h))
           · obtain ⟨c, hc1, hc2⟩ := h
             exact Or.inr (Or.inr (Or.inr ⟨c, by simp [hc1], hc2⟩))
         · first
             | (rcases ‹normalize_osm_name_tag k false ∈ ctx.languages ∨
                   normalize_osm_name_tag k true ∈ ctx.languages› with hg | hg
                · exact Or.inl (by rw [hnew]; exact hg)
                · exact Or.inr (Or.inl (by rw [hnew, strip_script_normalize]; exact hg)))
             | (exact Or.inr (Or.inr (Or.inl (by rw [hnew]; exact headLang_mem hcl))))
             | (exact Or.inr (Or.inr (Or.inr ⟨(v, amb_candidate_pairs ctx v), by simp,
                 hnew⟩)))
             | (exact Or.inr (Or.inr (Or.inr ⟨(v, bare_candidate_pairs ctx), by simp,
                 hnew⟩))))

/-- C5 (amended): every key of the language→names map returned by the
engine is a known language code, or a script-qualified form whose stripped
prefix is a known code, or one of the polygon's candidate languages, or an
answer the disambiguation collaborator returned on a recorded call; keys
that are not plain known codes (such as raw script-qualified suffixes) are
stored as-is, with any filtering left to the builders. -/
theorem C5_amended_key_provenance (collab : Collab) (rtree : LanguageRTree) (key : OsmKey)
    (value : List (String × String)) (tagPfx latS lonS : String) (ll : ℚ × ℚ)
    (hlat : alGet value "lat" = some latS) (hlon : alGet value "lon" = some lonS)
    (hll : latlon_to_floats latS lonS = some ll)
    (hc : ¬(rtree ll.1 ll.2).country = "")
    (hcl : ¬(rtree ll.1 ll.2).candidate_languages.isEmpty = true) :
    ∀ c m, (get_language_names collab rtree key value tagPfx).result = some (c, m) →
      ∀ K ∈ m.map Prod.fst,
        K ∈ collab.languages ∨ strip_script_qualifier K ∈ collab.languages ∨
        K ∈ (rtree ll.1 ll.2).candidate_languages.map (fun l => l.lang) ∨
        ∃ cc ∈ (get_language_names collab rtree key value tagPfx).calls,
          K = collab.disambiguate_language cc.1 cc.2 := by
  intro c m hres
  have hcl2 : ¬(mkAttrCtx collab (rtree ll.1 ll.2) value tagPfx).candidate_languages = [] := by
    intro h
    apply hcl
    have h2 : (rtree ll.1 ll.2).candidate_languages = [] := h
    rw [h2]
    rfl
  rw [get_language_names_run collab rtree key value tagPfx latS lonS ll hlat hlon hll hc hcl]
    at hres ⊢
  by_cases hab : (attrLoop (mkAttrCtx collab (rtree ll.1 ll.2) value tagPfx) value
      initAttrState).2 = true
  · rw [if_pos hab] at hres
    exact absurd hres (by simp)
  · rw [if_neg hab] at hres ⊢
    have hm : m = (attrLoop (mkAttrCtx collab (rtree ll.1 ll.2) value tagPfx) value
        initAttrState).1.name_language := by
      cases hres
      rfl
    rw [hm]
    exact attrLoop_inv (mkAttrCtx collab (rtree ll.1 ll.2) value tagPfx)
      (fun st => ∀ K ∈ st.name_language.map Prod.fst,
        K ∈ (mkAttrCtx collab (rtree ll.1 ll.2) value tagPfx).languages ∨
        strip_script_qualifier K ∈
          (mkAttrCtx collab (rtree ll.1 ll.2) value tagPfx).languages ∨
        K ∈ ((mkAttrCtx collab (rtree ll.1 ll.2) value
          tagPfx).candidate_languages).map (fun l => l.lang) ∨
        ∃ cc ∈ st.calls,
          K = (mkAttrCtx collab (rtree ll.1 ll.2) value tagPfx).disambiguate cc.1 cc.2)
      (fun st k v h => attrStep_keys_inv _ hcl2 st k v h)
      value initAttrState (by simp [initAttrState])

/-- Witness for the amended C5 on the raw-script-suffix fixture. -/
theorem C5_amended_key_provenance_witness :
    (alGet entityC5 "lat" = some "40.5" ∧ alGet entityC5 "lon" = some "3.5" ∧
      latlon_to_floats "40.5" "3.5" = some llW ∧
      ¬(constRtree geoC5 llW.1 llW.2).country = "" ∧
      ¬(constRtree geoC5 llW.1 llW.2).candidate_languages.isEmpty = true ∧
      (get_language_names collabC5 (constRtree geoC5) (OsmKey.plainId 1)
        entityC5 "name").result = some ("xx", [("zh_pinyin", ["Beijing"])]) ∧
      "zh_pinyin" ∈ [("zh_pinyin", ["Beijing"])].map
        (Prod.fst (α := String) (β := List String))) ∧
    ("zh_pinyin" ∈ collabC5.languages ∨
      strip_script_qualifier "zh_pinyin" ∈ collabC5.languages ∨
      "zh_pinyin" ∈ (constRtree geoC5 llW.1 llW.2).candidate_languages.map
        (fun l => l.lang) ∨
      ∃ cc ∈ (get_language_names collabC5 (constRtree geoC5) (OsmKey.plainId 1)
          entityC5 "name").calls,
        "zh_pinyin" = collabC5.disambiguate_language cc.1 cc.2) :=
  ⟨⟨rfl, rfl, rfl, by decide, by decide, by decide, by decide⟩,
    C5_amended_key_provenance collabC5 (constRtree geoC5) (OsmKey.plainId 1) entityC5
      "name" "40.5" "3.5" llW rfl rfl rfl (by decide) (by decide)
      "xx" [("zh_pinyin", ["Beijing"])] (by decide) "zh_pinyin" (by decide)⟩

/-- A qualified-name iteration leaves the accumulator unchanged when the
key resolves to no valid language. -/
theorem toponym_qualified_step_skip (collab : Collab) (valid : List String)
    (acc : List (Option String × List String) × Bool) (kv : String × String)
    (h : pyStartsWith kv.1 "name:" = true →
      ∀ l ∈ (toponym_tag_lang collab kv.1).toList, ¬l ∈ valid) :
    toponym_qualified_step collab valid acc kv = acc := by
  unfold toponym_qualified_step
  by_cases h1 : pyStartsWith kv.1 "name:" = true
  · rw [if_neg (by simp [h1])]
    cases htl : toponym_tag_lang collab kv.1 with
    | none => rfl
    | some lang =>
      dsimp only
      rw [if_neg (h h1 lang (by rw [htl]; simp))]
  · rw [if_pos (by simp [h1])]

/-- The qualified-name loop produces nothing when no key of the entity
resolves to a valid language. -/
theorem toponym_fold_nil (collab : Collab) (valid : List String)
    (value : List (String × String))
    (hnoq : ∀ kv ∈ value, pyStartsWith kv.1 "name:" = true →
      ∀ l ∈ (toponym_tag_lang collab kv.1).toList, ¬l ∈ valid) :
    value.foldl (toponym_qualified_step collab valid) ([], false) = ([], false) := by
  induction value with
  | nil => rfl
  | cons kv rest ih =>
    rw [List.foldl_cons, toponym_qualified_step_skip collab valid _ kv
      (hnoq kv (List.mem_cons_self kv rest))]
    exact ih (fun kv2 h2 => hnoq kv2 (List.mem_cons_of_mem kv h2))

/-- C7 (amended): in the toponym builder, when no language-qualified name
tag resolves to a valid language, the regional polygons overlapping the
point declare at most one language entry in total, a bare name tag exists
and exactly one valid language remains, the bare name value is filed as a
last resort under the first official language of the country (possibly
none), not under the single remaining valid language. -/
theorem C7_amended_last_resort (collab : Collab) (rtree : LanguageRTree)
    (value : List (String × String)) (latS lonS nv : String) (ll : ℚ × ℚ)
    (hname : value.any (fun kv => pyStartsWith kv.1 "name") = true)
    (hlat : alGet value "lat" = some latS) (hlon : alGet value "lon" = some lonS)
    (hll : latlon_to_floats latS lonS = some ll)
    (hc : ¬(rtree ll.1 ll.2).country = "")
    (hcl : ¬(rtree ll.1 ll.2).candidate_languages.isEmpty = true)
    (hvne : ¬(toponym_valid_languages collab (rtree ll.1 ll.2)).isEmpty = true)
    (hnoq : ∀ kv ∈ value, pyStartsWith kv.1 "name:" = true →
      ∀ l ∈ (toponym_tag_lang collab kv.1).toList,
        ¬l ∈ toponym_valid_languages collab (rtree ll.1 ll.2))
    (hreg : (toponym_regional_langs (rtree ll.1 ll.2)).length ≤ 1)
    (hbare : alGet value "name" = some nv)
    (hv1 : (toponym_valid_languages collab (rtree ll.1 ll.2)).length = 1) :
    toponym_entity collab rtree value =
      some ((rtree ll.1 ll.2).country,
        [(toponym_top_lang collab (rtree ll.1 ll.2).country, [nv])]) := by
  unfold toponym_entity
  rw [if_neg (by simp [hname])]
  rw [hlat, hlon]
  dsimp only
  rw [hll]
  dsimp only
  rw [if_neg (by simp [hc, hcl])]
  rw [if_neg (by simp [hvne])]
  rw [toponym_fold_nil collab _ value hnoq]
  (try dsimp only)
  rw [if_pos (⟨by simp, hreg, by rw [hbare]; rfl, hv1⟩ :
    ¬(false = true) ∧ (toponym_regional_langs (rtree ll.1 ll.2)).length ≤ 1 ∧
      (alGet value "name").isSome = true ∧
      (toponym_valid_languages collab (rtree ll.1 ll.2)).length = 1)]
  rw [hbare]
  rfl

/-- Country xx: single candidate fr; one regional polygon declaring a
single language entry. -/
def geoC7b : GeoLookup := ⟨"xx", [⟨"fr", true⟩], [⟨1, [⟨"oc", false⟩]⟩]⟩

/-- An entity with a bare name and one qualified name tag whose language
is known but not valid here. -/
def entityC7b : List (String × String) :=
  [("lat", "40.5"), ("lon", "3.5"), ("name", "Vila Nova"), ("name:br", "Kernael")]

/-- Witness for the amended C7 on the single-valid-language fixture. -/
theorem C7_amended_last_resort_witness :
    (entityC7b.any (fun kv => pyStartsWith kv.1 "name") = true ∧
      alGet entityC7b "lat" = some "40.5" ∧ alGet entityC7b "lon" = some "3.5" ∧
      latlon_to_floats "40.5" "3.5" = some llW ∧
      ¬(constRtree geoC7b llW.1 llW.2).country = "" ∧
      ¬(constRtree geoC7b llW.1 llW.2).candidate_languages.isEmpty = true ∧
      ¬(toponym_valid_languages collabC7 (constRtree geoC7b llW.1 llW.2)).isEmpty = true ∧
      (∀ kv ∈ entityC7b, pyStartsWith kv.1 "name:" = true →
        ∀ l ∈ (toponym_tag_lang collabC7 kv.1).toList,
          ¬l ∈ toponym_valid_languages collabC7 (constRtree geoC7b llW.1 llW.2)) ∧
      (toponym_regional_langs (constRtree geoC7b llW.1 llW.2)).length ≤ 1 ∧
      alGet entityC7b "name" = some "Vila Nova" ∧
      (toponym_valid_languages collabC7 (constRtree geoC7b llW.1 llW.2)).length = 1) ∧
    toponym_entity collabC7 (constRtree geoC7b) entityC7b =
      some ((constRtree geoC7b llW.1 llW.2).country,
        [(toponym_top_lang collabC7 (constRtree geoC7b llW.1 llW.2).country,
          ["Vila Nova"])]) :=
  ⟨⟨by decide, rfl, rfl, rfl, by decide, by decide, by decide, by decide, by decide,
    rfl, by decide⟩,
    C7_amended_last_resort collabC7 (constRtree geoC7b) entityC7b "40.5" "3.5"
      "Vila Nova" llW (by decide) rfl rfl rfl (by decide) (by decide) (by decide)
      (by decide) (by decide) rfl (by decide)⟩

/-- Pointwise reading of an update-or-append write. -/
theorem alGet_alSet {α β : Type} [DecidableEq α] (d : List (α × β)) (k : α) (v : β)
    (x : α) : alGet (alSet d k v) x = if x = k then some v else alGet d x := by
  induction d with
  | nil =>
    by_cases h : x = k
    · subst h; simp [alSet, alGet]
    · simp [alSet, alGet, h, Ne.symm h]
  | cons e rest ih =>
    obtain ⟨k1, v1⟩ := e
    simp only [alSet]
    by_cases h1 : k1 = k
    · subst h1
      rw [if_pos rfl]
      by_cases h : x = k1
      · subst h; simp [alGet]
      · simp [alGet, h, Ne.symm h]
    · rw [if_neg h1]
      by_cases h2 : k1 = x
      · simp only [alGet, if_pos h2]
        rw [if_neg (fun hh : x = k => h1 (h2.trans hh))]
      · simp only [alGet, if_neg h2]
        exact ih

/-- Removing one key does not affect reads of another. -/
theorem alGet_alPop_ne {α β : Type} [DecidableEq α] (d : List (α × β)) (k x : α)
    (hx : ¬x = k) : alGet (alPop d k) x = alGet d x := by
  induction d with
  | nil => rfl
  | cons e rest ih =>
    obtain ⟨k1, v1⟩ := e
    simp only [alPop]
    by_cases h1 : k1 = k
    · subst h1
      rw [if_pos rfl]
      show alGet rest x = alGet ((k1, v1) :: rest) x
      simp only [alGet]
      rw [if_neg (fun hh : k1 = x => hx hh.symm)]
    · rw [if_neg h1]
      simp only [alGet]
      by_cases h2 : k1 = x
      · rw [if_pos h2, if_pos h2]
      · rw [if_neg h2, if_neg h2]
        exact ih

/-- A read misses exactly when the key is absent. -/
theorem alGet_eq_none_iff {α β : Type} [DecidableEq α] (d : List (α × β)) (x : α) :
    alGet d x = none ↔ ¬x ∈ d.map Prod.fst := by
  induction d with
  | nil => simp [alGet]
  | cons e rest ih =>
    obtain ⟨k1, v1⟩ := e
    simp only [alGet, List.map_cons, List.mem_cons]
    by_cases h1 : k1 = x
    · subst h1; simp
    · rw [if_neg h1, ih]
      constructor
      · intro h2 hor
        rcases hor with hh | hh
        · exact h1 hh.symm
        · exact h2 hh
      · intro h2 hm
        exact h2 (Or.inr hm)

/-- Removing a key never increases any key count. -/
theorem alPop_count_le {α β : Type} [DecidableEq α] (d : List (α × β)) (k x : α) :
    ((alPop d k).map Prod.fst).count x ≤ (d.map Prod.fst).count x := by
  induction d with
  | nil => simp [alPop]
  | cons e rest ih =>
    obtain ⟨k1, v1⟩ := e
    simp only [alPop]
    by_cases h1 : k1 = k
    · rw [if_pos h1]
      simp only [List.map_cons, List.count_cons, beq_iff_eq]
      by_cases h2 : k1 = x
      · rw [if_pos h2]; omega
      · rw [if_neg h2]; omega
    · rw [if_neg h1]
      simp only [List.map_cons, List.count_cons, beq_iff_eq]
      by_cases h2 : k1 = x
      · rw [if_pos h2]; omega
      · rw [if_neg h2]; omega

/-- A write to one key does not change the count of another. -/
theorem alSet_count_ne {α β : Type} [DecidableEq α] (d : List (α × β)) (k : α) (v : β)
    (x : α) (hx : ¬x = k) :
    ((alSet d k v).map Prod.fst).count x = (d.map Prod.fst).count x := by
  induction d with
  | nil =>
    simp only [alSet, List.map_cons, List.map_nil, List.count_cons, beq_iff_eq,
      List.count_nil]
    rw [if_neg (fun hh : k = x => hx hh.symm)]
  | cons e rest ih =>
    obtain ⟨k1, v1⟩ := e
    simp only [alSet]
    by_cases h1 : k1 = k
    · rw [if_pos h1]
      simp only [List.map_cons]
    · rw [if_neg h1]
      simp only [List.map_cons, List.count_cons, beq_iff_eq]
      rw [ih]

/-- A write keeps the written key's count at most one. -/
theorem alSet_count_self {α β : Type} [DecidableEq α] (d : List (α × β)) (k : α) (v : β)
    (h : (d.map Prod.fst).count k ≤ 1) :
    ((alSet d k v).map Prod.fst).count k ≤ 1 := by
  induction d with
  | nil =>
    simp [alSet, List.count_cons]
  | cons e rest ih =>
    obtain ⟨k1, v1⟩ := e
    simp only [alSet]
    by_cases h1 : k1 = k
    · rw [if_pos h1]
      simp only [List.map_cons] at h ⊢
      exact h
    · rw [if_neg h1]
      simp only [List.map_cons, List.count_cons, beq_iff_eq] at h ⊢
      rw [if_neg h1] at h ⊢
      have h3 : ((alSet rest k v).map Prod.fst).count k ≤ 1 := ih (by omega)
      omega

/-- With no duplicate, removing a key makes its read miss. -/
theorem alGet_alPop_self {α β : Type} [DecidableEq α] (d : List (α × β)) (k : α)
    (h : (d.map Prod.fst).count k ≤ 1) : alGet (alPop d k) k = none := by
  induction d with
  | nil => rfl
  | cons e rest ih =>
    obtain ⟨k1, v1⟩ := e
    simp only [alPop]
    by_cases h1 : k1 = k
    · rw [if_pos h1]
      subst h1
      simp only [List.map_cons, List.count_cons_self] at h
      rw [(alGet_eq_none_iff rest k1).mpr]
      intro hmem
      have h3 : 0 < (rest.map Prod.fst).count k1 := List.count_pos_iff.mpr hmem
      omega
    · rw [if_neg h1]
      simp only [alGet, if_neg h1]
      apply ih
      simp only [List.map_cons, List.count_cons, beq_iff_eq] at h
      rw [if_neg h1] at h
      omega

/-- A language-namespaced key differs from its base key. -/
theorem ne_append_colon (kk lang : String) : ¬(kk ++ ":" ++ lang) = kk := by
  intro h
  have h1 := congrArg String.length h
  rw [String.length_append, String.length_append] at h1
  have h2 : (":" : String).length = 1 := rfl
  omega

/-- A localization step modifies no entry besides its own key. -/
theorem limited_localize_step_ne (lang : String) (single : Bool)
    (d : List (String × String)) (k x : String) (hx : ¬x = k) :
    alGet (limited_localize_step lang single d k) x = alGet d x := by
  unfold limited_localize_step
  dsimp only
  cases hpk : alGet d (k ++ ":" ++ lang) with
  | some nv =>
    dsimp only
    rw [alGet_alSet]
    rw [if_neg hx]
  | none =>
    dsimp only
    by_cases hs : single = true
    · rw [if_neg (by simp [hs])]
    · rw [if_pos (by simp [hs])]
      exact alGet_alPop_ne d k x hx

/-- The localization loop modifies no entry outside the processed keys. -/
theorem limited_fold_untouched (lang : String) (single : Bool) :
    ∀ (ks : List String) (d : List (String × String)) (x : String), ¬x ∈ ks →
      alGet (ks.foldl (limited_localize_step lang single) d) x = alGet d x := by
  intro ks
  induction ks with
  | nil => intro d x _; rfl
  | cons k0 rest ih =>
    intro d x hx
    rw [List.foldl_cons]
    rw [ih _ x (fun hh => hx (List.mem_cons_of_mem k0 hh))]
    exact limited_localize_step_ne lang single d k0 x
      (fun hh => hx (hh ▸ List.mem_cons_self k0 rest))

/-- A localization step keeps every key count at most one. -/
theorem limited_localize_step_count (lang : String) (single : Bool)
    (d : List (String × String)) (k : String)
    (h : ∀ y, ((d.map Prod.fst).count y) ≤ 1) :
    ∀ y, (((limited_localize_step lang single d k).map Prod.fst).count y) ≤ 1 := by
  intro y
  unfold limited_localize_step
  dsimp only
  cases hpk : alGet d (k ++ ":" ++ lang) with
  | some nv =>
    dsimp only
    by_cases hy : y = k
    · subst hy
      exact alSet_count_self d y nv (h y)
    · rw [alSet_count_ne d k nv y hy]
      exact h y
  | none =>
    dsimp only
    by_cases hs : single = true
    · rw [if_neg (by simp [hs])]
      exact h y
    · rw [if_pos (by simp [hs])]
      exact le_trans (alPop_count_le d k y) (h y)

/-- In a duplicate-free concatenation, a two-element sublist whose first
element lies in the right part has its second element there as well. -/
theorem sublist_pair_right {α : Type} (done ks : List α) (a b : α)
    (hnd : (done ++ ks).Nodup) (hs : [a, b].Sublist (done ++ ks)) (ha : a ∈ ks) :
    b ∈ ks := by
  rcases List.sublist_append_iff.mp hs with ⟨t1, t2, heq, h1, h2⟩
  cases t1 with
  | nil =>
    rw [List.nil_append] at heq
    rw [← heq] at h2
    exact h2.subset (by simp)
  | cons z t1a =>
    cases t1a with
    | nil =>
      have hz : z = a := by
        have h5 := congrArg (fun l => l.headD a) heq
        simpa using h5.symm
      have ht2 : t2 = [b] := by
        cases t2 with
        | nil => simp at heq
        | cons w t2a =>
          have h3 : [a, b] = z :: w :: t2a := by simpa using heq
          cases h3
          rfl
      rw [ht2] at h2
      exact h2.subset (by simp)
    | cons w t1b =>
      have hz : z = a := by
        have h5 := congrArg (fun l => l.headD a) heq
        simpa using h5.symm
      have hadone : a ∈ done := by
        rw [← hz]
        exact h1.subset (List.mem_cons_self z (w :: t1b))
      rcases List.nodup_append.mp hnd with ⟨h6, h7, hdisj⟩
      exact absurd ha (hdisj hadone)

/-- Characterization of the localization loop: when the entity's keys are
duplicate-free and no namespaced key precedes its base key, each key of the
localized bag reads as the `key:lang` override when the entity has one, as
the shared value when the entity has a single attributed language, and is
deleted otherwise. -/
theorem limited_fold_spec (value : List (String × String)) (lang : String) (single : Bool)
    (hnodup : (value.map Prod.fst).Nodup)
    (horder : ∀ kk ∈ value.map Prod.fst, (kk ++ ":" ++ lang) ∈ value.map Prod.fst →
      List.Sublist [kk, kk ++ ":" ++ lang] (value.map Prod.fst)) :
    ∀ (ks done : List String) (d : List (String × String)),
      value.map Prod.fst = done ++ ks →
      (∀ y, ((d.map Prod.fst).count y) ≤ 1) →
      (∀ x ∈ ks, alGet d x = alGet value x) →
      (∀ x, ¬x ∈ value.map Prod.fst → alGet d x = none) →
      ∀ k ∈ ks,
        alGet (ks.foldl (limited_localize_step lang single) d) k =
          match alGet value (k ++ ":" ++ lang) with
          | some nv => some nv
          | none => if single = true then alGet value k else none := by
  intro ks
  induction ks with
  | nil =>
    intro done d _ _ _ _ k hk
    cases hk
  | cons k0 rest ih =>
    intro done d heq hcount hunproc hout k hk
    rw [List.foldl_cons]
    have hk0full : k0 ∈ value.map Prod.fst := by
      rw [heq]
      exact List.mem_append_right done (List.mem_cons_self k0 rest)
    have hnd2 : (done ++ k0 :: rest).Nodup := heq ▸ hnodup
    have hk0rest : ¬k0 ∈ rest := by
      rcases List.nodup_append.mp hnd2 with ⟨h6, h7, h8⟩
      exact (List.nodup_cons.mp h7).1
    have hdpk : alGet d (k0 ++ ":" ++ lang) = alGet value (k0 ++ ":" ++ lang) := by
      by_cases hpkfull : (k0 ++ ":" ++ lang) ∈ value.map Prod.fst
      · have hpkks : (k0 ++ ":" ++ lang) ∈ k0 :: rest :=
          sublist_pair_right done (k0 :: rest) k0 (k0 ++ ":" ++ lang) hnd2
            (by rw [← heq]; exact horder k0 hk0full hpkfull)
            (List.mem_cons_self k0 rest)
        exact hunproc (k0 ++ ":" ++ lang) hpkks
      · rw [hout (k0 ++ ":" ++ lang) hpkfull,
          (alGet_eq_none_iff value (k0 ++ ":" ++ lang)).mpr hpkfull]
    have hstep : alGet (limited_localize_step lang single d k0) k0 =
        (match alGet value (k0 ++ ":" ++ lang) with
         | some nv => some nv
         | none => if single = true then alGet value k0 else none) := by
      unfold limited_localize_step
      dsimp only
      rw [hdpk]
      cases hpkv : alGet value (k0 ++ ":" ++ lang) with
      | some nv =>
        dsimp only
        rw [alGet_alSet, if_pos rfl]
      | none =>
        dsimp only
        by_cases hs : single = true
        · rw [if_neg (by simp [hs]), if_pos hs]
          exact hunproc k0 (List.mem_cons_self k0 rest)
        · rw [if_pos (by simp [hs]), if_neg hs]
          exact alGet_alPop_self d k0 (hcount k0)
    rcases List.mem_cons.mp hk with hq | hkrest
    · subst hq
      rw [limited_fold_untouched lang single rest _ k hk0rest]
      exact hstep
    · refine ih (done ++ [k0]) (limited_localize_step lang single d k0) ?_ ?_ ?_ ?_ k hkrest
      · rw [heq, List.append_assoc]
        rfl
      · exact limited_localize_step_count lang single d k0 hcount
      · intro x hx
        rw [limited_localize_step_ne lang single d k0 x
          (fun hh => hk0rest (hh ▸ hx))]
        exact hunproc x (List.mem_cons_of_mem k0 hx)
      · intro x hx
        rw [limited_localize_step_ne lang single d k0 x
          (fun hh => hx (hh ▸ hk0full))]
        exact hout x hx

/-- A row step logs only nonempty tag bags. -/
theorem limited_row_step_calls (collab : Collab) (country : String)
    (value : List (String × String)) (single : Bool) (acc : LimitedOutput)
    (lv : String × List String)
    (h : ∀ c ∈ acc.formatter_calls, ¬c.2.isEmpty = true) :
    ∀ c ∈ (limited_row_step collab country value single acc lv).formatter_calls,
      ¬c.2.isEmpty = true := by
  unfold limited_row_step
  dsimp only
  split_ifs with h1 h2 <;>
    first
      | exact h
      | (cases hfa : collab.format_address country (limited_localize value lv.1 single)
             false <;>
           (intro c hc
            replace hc : c ∈ acc.formatter_calls ++
               [(lv.1, limited_localize value lv.1 single)] := hc
            rcases List.mem_append.mp hc with hc1 | hc2
            · exact h c hc1
            · have hceq := List.mem_singleton.mp hc2
              subst hceq
              exact h2))

/-- Every tag bag the limited builder passes to the formatter is
nonempty. -/
theorem limited_entity_calls_nonempty (collab : Collab) (rtree : LanguageRTree)
    (key : OsmKey) (value : List (String × String)) :
    ∀ c ∈ (limited_entity collab rtree key value).formatter_calls,
      ¬c.2.isEmpty = true := by
  have hfold : ∀ (l : List (String × List String)) (country : String)
      (v2 : List (String × String)) (single : Bool) (acc : LimitedOutput),
      (∀ c ∈ acc.formatter_calls, ¬c.2.isEmpty = true) →
      ∀ c ∈ (l.foldl (limited_row_step collab country v2 single) acc).formatter_calls,
        ¬c.2.isEmpty = true := by
    intro l
    induction l with
    | nil =>
      intro country v2 single acc h
      exact h
    | cons lv rest ih =>
      intro country v2 single acc h
      rw [List.foldl_cons]
      exact ih country v2 single _ (limited_row_step_calls collab country v2 single acc lv h)
  unfold limited_entity
  cases h1 : alGet value "lat" with
  | none => simp
  | some latS =>
    cases h2 : alGet value "lon" with
    | none => simp
    | some lonS =>
      dsimp only
      cases h3 : latlon_to_floats latS lonS with
      | none => simp
      | some ll =>
        dsimp only
        split_ifs with h4
        · simp
        · cases h5 : (get_language_names collab rtree key
            ((NAME_KEYS ++ COUNTRY_KEYS ++ POSTAL_KEYS ++ OSM_IGNORE_KEYS).foldl
              alPop value) "addr:street").result with
          | none => simp
          | some cm =>
            dsimp only
            split_ifs with h6
            · simp
            · exact hfold cm.2 cm.1 _ _ ⟨[], []⟩ (by simp)

/-- C8 (amended): in the limited formatted-address builder, each output
row's tag bag gives every field the `key:lang` override when the entity
carries one; when a field has no per-language override its shared value is
kept only when the entity has a single attributed language, and the field
is deleted otherwise; and every tag bag handed to the formatter (hence
every emitted row) is nonempty.  Key reads assume the entity's tag keys
are duplicate-free and no namespaced key precedes its base key. -/
theorem C8_amended_localized_fields (value : List (String × String)) (lang : String)
    (single : Bool) (collab : Collab) (rtree : LanguageRTree) (key : OsmKey)
    (v2 : List (String × String))
    (hnodup : (value.map Prod.fst).Nodup)
    (horder : ∀ kk ∈ value.map Prod.fst, (kk ++ ":" ++ lang) ∈ value.map Prod.fst →
      List.Sublist [kk, kk ++ ":" ++ lang] (value.map Prod.fst)) :
    (∀ k ∈ value.map Prod.fst,
      alGet (limited_localize value lang single) k =
        match alGet value (k ++ ":" ++ lang) with
        | some nv => some nv
        | none => if single = true then alGet value k else none) ∧
    (∀ c ∈ (limited_entity collab rtree key v2).formatter_calls,
      ¬c.2.isEmpty = true) := by
  constructor
  · intro k hk
    exact limited_fold_spec value lang single hnodup horder
      (value.map Prod.fst) [] value rfl
      (List.nodup_iff_count_le_one.mp hnodup)
      (fun x _ => rfl)
      (fun x hx => (alGet_eq_none_iff value x).mpr hx)
      k hk
  · exact limited_entity_calls_nonempty collab rtree key v2

/-- Entity for the localization characterization: one field with a French
override, one field without. -/
def valueC8b : List (String × String) :=
  [("lat", "40.5"), ("lon", "3.5"), ("addr:street", "Main St"),
   ("addr:street:fr", "Rue Principale"), ("addr:city", "Springfield")]

/-- Witness for the amended C8 on the mixed-override fixture. -/
theorem C8_amended_localized_fields_witness :
    ((valueC8b.map Prod.fst).Nodup ∧
      (∀ kk ∈ valueC8b.map Prod.fst, (kk ++ ":" ++ "fr") ∈ valueC8b.map Prod.fst →
        List.Sublist [kk, kk ++ ":" ++ "fr"] (valueC8b.map Prod.fst))) ∧
    ((∀ k ∈ valueC8b.map Prod.fst,
      alGet (limited_localize valueC8b "fr" false) k =
        match alGet valueC8b (k ++ ":" ++ "fr") with
        | some nv => some nv
        | none => if false = true then alGet valueC8b k else none) ∧
    (∀ c ∈ (limited_entity collabC8 (constRtree geoC8) (OsmKey.plainId 1)
        entityC8).formatter_calls, ¬c.2.isEmpty = true)) :=
  ⟨⟨by decide, by decide⟩,
    C8_amended_localized_fields valueC8b "fr" false collabC8 (constRtree geoC8)
      (OsmKey.plainId 1) entityC8 (by decide) (by decide)⟩
